import Mathlib

set_option maxRecDepth 4000

/-!
Verification development for `summarize_sessions.py` (DemoMazeGame).

The script is embedded shallowly: Python runtime values that can appear in a
parsed JSON document (and in the script's variables) are modelled by `PyVal`;
the script's dynamic operations (`dict.get`, `==`, `+`, `>`, truthiness,
hashability, true division) are modelled by executable functions that return
`Except String _` exactly where the Python operation can raise.  Python `int`
is modelled by `Int` (arbitrary precision) and Python `float` by a `ℚ`
value; float addition rounds its exact rational result to binary64 via
`flRound` below, as IEEE arithmetic does, so the non-associativity of float
accumulation is faithfully represented.  The decimal digit strings printed
for floats abstract from the shortest-repr algorithm, which no claim
depends on.
-/

/-! ### Kernel-computable arithmetic and string primitives

`Rat.add`, `Rat.mul`, `Rat.div` are irreducible, and several `String`
primitives do not reduce in the kernel, so the embedding computes with
`mkRat`-based rational operations and `List Char`-based string operations.
They are proved equal to the standard operations below, so theorems can still
be stated with ordinary `ℚ` arithmetic. -/

/-- The rational `n / d` for integer numerator and denominator. -/
def intRat (n d : Int) : ℚ :=
  if d < 0 then mkRat (-n) (-d).toNat else mkRat n d.toNat

/-- Computable rational addition. -/
def ratAdd (a b : ℚ) : ℚ := intRat (a.num * b.den + b.num * a.den) (a.den * b.den)

/-- Computable rational multiplication. -/
def ratMul (a b : ℚ) : ℚ := intRat (a.num * b.num) (a.den * b.den)

/-- Computable rational division (`a / 0 = 0`, as for `ℚ`). -/
def ratDiv (a b : ℚ) : ℚ := intRat (a.num * b.den) (a.den * b.num)

/-- Bit length of a natural number, fuel-based so that it reduces in the
kernel (the recursion depth is the bit count, far below the fuel). -/
def bitLenAux : Nat → Nat → Nat
  | 0, _ => 0
  | fuel + 1, n => if n = 0 then 0 else bitLenAux fuel (n / 2) + 1

def natBits (n : Nat) : Nat := bitLenAux n n

/-- IEEE-754 binary64 rounding (round to nearest, ties to even) of an exact
rational, in pure integer arithmetic: find the floor base-2 exponent `e` of
`|q|`, quantize at `2^(e-52)` (gradual underflow below `2^-1022` via the
fixed quantum `2^-1074`), and round the quotient half-to-even.  Python float
arithmetic computes the exact result and rounds it this way.  Overflow to
±infinity (|q| beyond ~1.8e308, reachable only from astronomically large
inputs) is not modelled — no claim here exercises it; within the finite
range this is exactly the binary64 value Python produces. -/
def flRound (q : ℚ) : ℚ :=
  if q = 0 then 0
  else
    let N : Nat := q.num.natAbs
    let D : Nat := q.den
    let e0 : Int := (natBits N : Int) - (natBits D : Int)
    let e : Int := if D * 2 ^ e0.toNat ≤ N * 2 ^ (-e0).toNat then e0 else e0 - 1
    let k : Int := max (e - 52) (-1074)
    let A : Nat := N * 2 ^ (-k).toNat
    let B : Nat := D * 2 ^ k.toNat
    let m : Nat :=
      if 2 * (A % B) < B then A / B
      else if B < 2 * (A % B) then A / B + 1
      else if (A / B) % 2 = 0 then A / B else A / B + 1
    let sign : Int := if q.num < 0 then -1 else 1
    intRat (sign * (m : Int) * 2 ^ k.toNat) (2 ^ (-k).toNat)

/-- Python `s.endswith(t)`. -/
def strEndsWith (s t : String) : Bool := t.data.isSuffixOf s.data

/-- Split a character list on underscores (Python `name.split('_')`). -/
def splitOnUnderscore : List Char → List (List Char)
  | [] => [[]]
  | c :: rest =>
    if c = '_' then [] :: splitOnUnderscore rest
    else match splitOnUnderscore rest with
      | [] => [[c]]
      | seg :: segs => (c :: seg) :: segs

/-- Code-point comparison of characters, as Python compares strings. -/
def charLeB (a b : Char) : Bool := a.toNat ≤ b.toNat

/-- Lexicographic comparison of character lists. -/
def charListLe : List Char → List Char → Bool
  | [], _ => true
  | _ :: _, [] => false
  | x :: xs, y :: ys => if x = y then charListLe xs ys else charLeB x y

/-- Lexicographic (code-point) string order, as Python `sorted` uses. -/
def strLeB (a b : String) : Bool := charListLe a.data b.data

/-- A Python value as produced by `json.load` (plus values the script makes). -/
inductive PyVal : Type where
  | pynone : PyVal
  | pybool : Bool → PyVal
  | pyint : Int → PyVal
  | pyfloat : ℚ → PyVal
  | pystr : String → PyVal
  | pylist : List PyVal → PyVal
  | pydict : List (String × PyVal) → PyVal

/-- Numeric view: Python `bool`, `int` and `float` all compare and add as
numbers (`True == 1`, `1 == 1.0`).  `none` for non-numeric values. -/
def PyVal.toQ : PyVal → Option ℚ
  | .pybool b => some (if b then 1 else 0)
  | .pyint n => some (n : ℚ)
  | .pyfloat q => some q
  | _ => none

/-- Whether a value is numeric (a Python `bool`, `int` or `float`). -/
def PyVal.isNum (v : PyVal) : Bool := v.toQ.isSome

/-- Whether the value is a Python `float`. -/
def PyVal.isFloatV : PyVal → Bool
  | .pyfloat _ => true
  | _ => false

/-- The integer value of a non-float numeric value (`True` counts as 1). -/
def pyIntVal : PyVal → Int
  | .pybool b => if b then 1 else 0
  | .pyint n => n
  | _ => 0

mutual
/-- Python `==`.  Numeric values compare by value across `bool`/`int`/`float`;
values of unrelated types compare unequal without raising.  Equality of two
dicts is modelled structurally: the script only ever compares a value against
the booleans `True`/`False` (where any dict compares unequal, as in Python),
so order-insensitive dict equality is never observable here. -/
def pyEq : PyVal → PyVal → Bool
  | .pynone, .pynone => true
  | .pybool a, .pybool b => a == b
  | .pybool a, .pyint n => (if a then (1 : Int) else 0) == n
  | .pybool a, .pyfloat q => (if a then (1 : ℚ) else 0) == q
  | .pyint m, .pybool b => m == (if b then (1 : Int) else 0)
  | .pyint m, .pyint n => m == n
  | .pyint m, .pyfloat q => ((m : ℚ)) == q
  | .pyfloat p, .pybool b => p == (if b then (1 : ℚ) else 0)
  | .pyfloat p, .pyint n => p == ((n : ℚ))
  | .pyfloat p, .pyfloat q => p == q
  | .pystr a, .pystr b => a == b
  | .pylist a, .pylist b => pyEqList a b
  | .pydict a, .pydict b => pyEqDict a b
  | _, _ => false

def pyEqList : List PyVal → List PyVal → Bool
  | [], [] => true
  | a :: as, b :: bs => pyEq a b && pyEqList as bs
  | _, _ => false

def pyEqDict : List (String × PyVal) → List (String × PyVal) → Bool
  | [], [] => true
  | (k1, v1) :: as, (k2, v2) :: bs => k1 == k2 && pyEq v1 v2 && pyEqDict as bs
  | _, _ => false
end

/-- Python hashability: every value the script can extract is hashable except
lists and dicts (`TypeError: unhashable type` when used as a dict key). -/
def pyHashable : PyVal → Bool
  | .pylist _ => false
  | .pydict _ => false
  | _ => true

/-- Python truthiness (`if v:`); never raises. -/
def pyTruthy : PyVal → Bool
  | .pynone => false
  | .pybool b => b
  | .pyint n => n != 0
  | .pyfloat q => q != 0
  | .pystr s => s != ""
  | .pylist l => !l.isEmpty
  | .pydict l => !l.isEmpty

/-- Python `d.get(key, default)`.  Raises `AttributeError` when the receiver
is not a dict (exactly what happens in the script when a sub-object has an
unexpected type); never raises on a dict. -/
def pyGet : PyVal → String → PyVal → Except String PyVal
  | .pydict kvs, k, dflt => .ok (((kvs.find? (fun kv => decide (kv.1 = k))).map (·.2)).getD dflt)
  | _, _, _ => .error "AttributeError: object has no attribute get"

/-- Plain lookup in a dict value: `some v` when the key is present, `none`
when absent or when the value is not a dict. -/
def dictFind (v : PyVal) (k : String) : Option PyVal :=
  match v with
  | .pydict kvs => (kvs.find? (fun kv => decide (kv.1 = k))).map (·.2)
  | _ => none

/-- Python `a + b` as used by the script's `+=` counter updates: numeric
addition — exact on ints/bools, rounded to binary64 when either operand is
a `float` (the exact sum of binary64 operands rounded to nearest-even is
precisely IEEE float addition) — sequence concatenation for two strings or
two lists, `TypeError` otherwise. -/
def pyAdd (a b : PyVal) : Except String PyVal :=
  match a.toQ, b.toQ with
  | some x, some y =>
    if a.isFloatV || b.isFloatV then .ok (.pyfloat (flRound (ratAdd x y)))
    else .ok (.pyint (pyIntVal a + pyIntVal b))
  | _, _ =>
    match a, b with
    | .pystr s, .pystr t => .ok (.pystr (s ++ t))
    | .pylist s, .pylist t => .ok (.pylist (s ++ t))
    | _, _ => .error "TypeError: unsupported operand types for +"

/-- Python `v > 0`: numeric comparison, `TypeError` for non-numeric `v`. -/
def pyGtZero (v : PyVal) : Except String Bool :=
  match v.toQ with
  | some q => .ok (decide (0 < q))
  | none => .error "TypeError: comparison not supported"

/-- Numeric coercion for Python true division, `TypeError` if non-numeric. -/
def pyToNum (v : PyVal) : Except String ℚ :=
  match v.toQ with
  | some q => .ok q
  | none => .error "TypeError: unsupported operand type for division"

/-- `session["backtracks"] / session["total_moves"] * 100 if
session["total_moves"] > 0 else 0` (lines 71-74 of the script).  True
division always yields a `float`; the guard means no `ZeroDivisionError`. -/
def pyRate (backtracks total_moves : PyVal) : Except String PyVal := do
  let gt ← pyGtZero total_moves
  if gt then
    let qb ← pyToNum backtracks
    let qt ← pyToNum total_moves
    .ok (.pyfloat (ratMul (ratDiv qb qt) 100))
  else
    .ok (.pyint 0)

/-- Timestamp extraction from the filename (lines 50-51): first two
underscore-separated segments rejoined, else the first 19 characters. -/
def timestampOf (name : String) : String :=
  match splitOnUnderscore name.data with
  | p0 :: p1 :: _ => String.mk p0 ++ "_" ++ String.mk p1
  | _ => String.mk (name.data.take 19)

/-- The normalized session record (the `session` dict, lines 53-74). -/
structure Session where
  timestamp : String
  model : PyVal
  goal_coords_on : PyVal
  won : PyVal
  stopped_by_user : PyVal
  max_moves : PyVal
  too_many_revisits : PyVal
  error_flag : PyVal
  total_moves : PyVal
  successful_moves : PyVal
  wall_collisions : PyVal
  unique_positions : PyVal
  backtracks : PyVal
  total_tokens : PyVal
  cost_usd : PyVal
  backtrack_rate : PyVal

/-- The record normalizer: lines 43-74 of the script, in exactly the
evaluation order of the Python source (sub-object extraction, then the
`session` dict literal left to right, then the backtrack rate).  Any raising
operation surfaces as `.error`, to be caught by the per-file handler. -/
def normalizeSession (name : String) (data : PyVal) : Except String Session := do
  let settings ← pyGet data "settings" (.pydict [])
  let outcome ← pyGet data "outcome" (.pydict [])
  let metrics ← pyGet data "metrics" (.pydict [])
  let tokens ← pyGet data "tokenUsage" (.pydict [])
  let cost ← pyGet data "cost" (.pydict [])
  let timestamp := timestampOf name
  let modelObj ← pyGet data "model" (.pydict [])
  let model ← pyGet modelObj "name" (.pystr "Unknown")
  let goal ← pyGet settings "showGoalCoordinates" (.pystr "unknown")
  let won ← pyGet outcome "won" (.pybool false)
  let stopped ← pyGet outcome "stoppedByUser" (.pybool false)
  let maxm ← pyGet outcome "reachedMaxMoves" (.pybool false)
  let revis ← pyGet outcome "tooManyRevisits" (.pybool false)
  let errv ← pyGet outcome "errorOccurred" (.pybool false)
  let totalMoves ← pyGet metrics "totalMoves" (.pyint 0)
  let succMoves ← pyGet metrics "successfulMoves" (.pyint 0)
  let wallColl ← pyGet metrics "wallCollisions" (.pyint 0)
  let uniqPos ← pyGet metrics "uniquePositionsVisited" (.pyint 0)
  let backs ← pyGet metrics "backtrackCount" (.pyint 0)
  let totalTokens ← pyGet tokens "totalTokens" (.pyint 0)
  let costUsd ← pyGet cost "totalCostUsd" (.pyint 0)
  let rate ← pyRate backs totalMoves
  .ok { timestamp := timestamp
        model := model
        goal_coords_on := goal
        won := won
        stopped_by_user := stopped
        max_moves := maxm
        too_many_revisits := revis
        error_flag := errv
        total_moves := totalMoves
        successful_moves := succMoves
        wall_collisions := wallColl
        unique_positions := uniqPos
        backtracks := backs
        total_tokens := totalTokens
        cost_usd := costUsd
        backtrack_rate := rate }

/-! ### Aggregation state (lines 30-35 and 79-96) -/

/-- One per-model counter record, `defaultdict` default
`{"runs": 0, "wins": 0, "moves": 0, "backtracks": 0, "collisions": 0}`.
`runs` and `wins` are only ever incremented by Python ints and stay ints;
`moves`, `backtracks`, `collisions` accumulate extracted metric values and can
become floats, so they stay `PyVal`. -/
structure MStats where
  runs : Nat
  wins : Nat
  moves : PyVal
  backtracks : PyVal
  collisions : PyVal

def initMStats : MStats :=
  { runs := 0, wins := 0, moves := .pyint 0, backtracks := .pyint 0, collisions := .pyint 0 }

/-- One goal-coordinates bucket `{"runs": 0, "wins": 0}`. -/
structure GStats where
  runs : Nat
  wins : Nat

/-- The script's mutable aggregation state. -/
structure AggState where
  all_sessions : List Session
  model_stats : List (PyVal × MStats)
  goal_on : GStats
  goal_off : GStats
  goal_unknown : GStats
  errors : List String

def initAgg : AggState :=
  { all_sessions := []
    model_stats := []
    goal_on := ⟨0, 0⟩
    goal_off := ⟨0, 0⟩
    goal_unknown := ⟨0, 0⟩
    errors := [] }

/-- Dict lookup keyed by Python `==` (as `defaultdict.__getitem__` compares
hashable keys). -/
def lookupStats : List (PyVal × MStats) → PyVal → Option MStats
  | [], _ => none
  | (k, v) :: rest, key => if pyEq key k then some v else lookupStats rest key

/-- Dict store: replace the entry whose key compares `==` to `key`, keeping
the originally inserted key object (as Python dicts do), else append. -/
def insertStats : List (PyVal × MStats) → PyVal → MStats → List (PyVal × MStats)
  | [], key, v => [(key, v)]
  | (k, w) :: rest, key, v =>
    if pyEq key k then (k, v) :: rest else (k, w) :: insertStats rest key v

/-- `print(f"Error parsing {filepath.name}: {e}")` inside the `except` arm. -/
def addError (st : AggState) (name msg : String) : AggState :=
  { st with errors := st.errors ++ ["Error parsing " ++ name ++ ": " ++ msg] }

/-- The goal-coordinates classification of lines 88-96:
`if v == True / elif v == False / else`. -/
inductive GoalClass : Type where
  | gcOn : GoalClass
  | gcOff : GoalClass
  | gcUnknown : GoalClass

def classifyGoal (v : PyVal) : GoalClass :=
  if pyEq v (.pybool true) then .gcOn
  else if pyEq v (.pybool false) then .gcOff
  else .gcUnknown

/-- Bucket increment: `runs += 1; wins += 1 if session["won"] else 0`. -/
def bucketAdd (g : GStats) (s : Session) : GStats :=
  { runs := g.runs + 1, wins := g.wins + (if pyTruthy s.won then 1 else 0) }

def updateBuckets (st : AggState) (s : Session) : AggState :=
  match classifyGoal s.goal_coords_on with
  | .gcOn => { st with goal_on := bucketAdd st.goal_on s }
  | .gcOff => { st with goal_off := bucketAdd st.goal_off s }
  | .gcUnknown => { st with goal_unknown := bucketAdd st.goal_unknown s }

/-- Lines 79-96: the per-model `+=` updates followed by the goal-coordinate
bucket update, still inside the `try`.  Each `model_stats[model][...] += x`
is a separate statement in the source; composing the successful increments
into one entry store is observationally identical since nothing reads the
dict in between.  An increment that raises (`TypeError`) aborts the rest of
the block but keeps every mutation already made, exactly as in Python;
an unhashable model raises before any entry is created. -/
def aggregateSession (st : AggState) (name : String) (s : Session) : AggState :=
  if pyHashable s.model then
    let e0 := (lookupStats st.model_stats s.model).getD initMStats
    let e2 := { e0 with runs := e0.runs + 1
                        wins := e0.wins + (if pyTruthy s.won then 1 else 0) }
    match pyAdd e2.moves s.total_moves with
    | .error msg => addError { st with model_stats := insertStats st.model_stats s.model e2 } name msg
    | .ok mv =>
      let e3 := { e2 with moves := mv }
      match pyAdd e3.backtracks s.backtracks with
      | .error msg => addError { st with model_stats := insertStats st.model_stats s.model e3 } name msg
      | .ok bv =>
        let e4 := { e3 with backtracks := bv }
        match pyAdd e4.collisions s.wall_collisions with
        | .error msg => addError { st with model_stats := insertStats st.model_stats s.model e4 } name msg
        | .ok cv =>
          let e5 := { e4 with collisions := cv }
          updateBuckets { st with model_stats := insertStats st.model_stats s.model e5 } s
  else
    addError st name "TypeError: unhashable type"

/-- Reading and parsing the file, then normalizing (lines 38-74). -/
def parseNorm (file : String × Except String PyVal) : Except String Session :=
  match file.2 with
  | .error msg => .error msg
  | .ok data => normalizeSession file.1 data

/-- Whether a file's record reaches the `all_sessions.append` (no exception
during read, parse or normalization). -/
def fileAppends (f : String × Except String PyVal) : Bool :=
  match parseNorm f with
  | .ok _ => true
  | .error _ => false

/-- One iteration of the `for filepath in session_files` loop: the whole body
runs inside `try`, the session is appended to `all_sessions` *before* the
aggregate updates, and any exception is caught and printed. -/
def processFile (st : AggState) (file : String × Except String PyVal) : AggState :=
  match parseNorm file with
  | .error msg => addError st file.1 msg
  | .ok s =>
    aggregateSession { st with all_sessions := st.all_sessions ++ [s] } file.1 s

/-- The whole scan loop over the (already sorted) session files. -/
def runLoop (files : List (String × Except String PyVal)) : AggState :=
  files.foldl processFile initAgg

/-! ### Derived forms of one aggregation step

These definitions repackage `aggregateSession`'s behaviour for the analysis;
they are proved equal to it (under the state invariant) below. -/

/-- Total numeric addition on numeric `PyVal`s (the defined fragment of
`pyAdd`): exact on ints/bools, rounded to binary64 by `flRound` when either
operand is a float, as Python float addition is.  On non-numeric arguments it
contributes 0, but it is only ever related to `pyAdd` on numeric arguments. -/
def numAdd (a b : PyVal) : PyVal :=
  if a.isFloatV || b.isFloatV then .pyfloat (flRound (ratAdd (a.toQ.getD 0) (b.toQ.getD 0)))
  else .pyint (pyIntVal a + pyIntVal b)

/-- The per-model entry update one session performs: `runs` and `wins`
always increment; each later `+=` lands only if every `+=` before it
succeeded, i.e. if all earlier added metric values are numeric. -/
def entryStep (s : Session) (e : MStats) : MStats :=
  { runs := e.runs + 1
    wins := e.wins + (if pyTruthy s.won then 1 else 0)
    moves := if s.total_moves.isNum then numAdd e.moves s.total_moves else e.moves
    backtracks := if s.total_moves.isNum && s.backtracks.isNum
      then numAdd e.backtracks s.backtracks else e.backtracks
    collisions := if s.total_moves.isNum && s.backtracks.isNum && s.wall_collisions.isNum
      then numAdd e.collisions s.wall_collisions else e.collisions }

/-- Whether the whole aggregation block of a session runs without raising
(hashable model, numeric metric values), so that the goal-coordinate bucket
update is reached. -/
def aggSuccess (s : Session) : Bool :=
  pyHashable s.model && s.total_moves.isNum && s.backtracks.isNum && s.wall_collisions.isNum

/-- A file either fails before the append, or its record aggregates fully. -/
def fileAggOk (f : String × Except String PyVal) : Bool :=
  match parseNorm f with
  | .ok s => aggSuccess s
  | .error _ => true

/-- How one session transforms the stats-entry visible under a fixed probe
key. -/
def optStep (key : PyVal) (o : Option MStats) (s : Session) : Option MStats :=
  if pyHashable s.model && pyEq key s.model then some (entryStep s (o.getD initMStats))
  else o

/-- The three goal-coordinate buckets of a state. -/
def bucketTriple (st : AggState) : GStats × GStats × GStats :=
  (st.goal_on, st.goal_off, st.goal_unknown)

/-- The bucket update one fully-aggregated session performs. -/
def bucketStep (t : GStats × GStats × GStats) (s : Session) : GStats × GStats × GStats :=
  match classifyGoal s.goal_coords_on with
  | .gcOn => (bucketAdd t.1 s, t.2.1, t.2.2)
  | .gcOff => (t.1, bucketAdd t.2.1 s, t.2.2)
  | .gcUnknown => (t.1, t.2.1, bucketAdd t.2.2 s)

/-- The bucket update of an arbitrary session (reached only on success). -/
def bucketStepIf (t : GStats × GStats × GStats) (s : Session) : GStats × GStats × GStats :=
  if aggSuccess s = true then bucketStep t s else t

/-- State invariant: every stats key is hashable and every accumulated
counter is numeric (they start at int 0 and only numeric sums are stored). -/
def statsInv (m : List (PyVal × MStats)) : Prop :=
  ∀ e ∈ m, pyHashable e.1 = true
    ∧ e.2.moves.isNum = true ∧ e.2.backtracks.isNum = true ∧ e.2.collisions.isNum = true

/-- Whether a session's three accumulated metric values are non-float
(Python ints/bools), so that its `+=` contributions are exact integer
additions rather than rounded binary64 additions. -/
def sessionNonFloat (s : Session) : Bool :=
  !s.total_moves.isFloatV && !s.backtracks.isFloatV && !s.wall_collisions.isFloatV

/-- Whether a per-model entry's accumulated counters are all non-float. -/
def mstatsNonFloat (e : MStats) : Bool :=
  !e.moves.isFloatV && !e.backtracks.isFloatV && !e.collisions.isFloatV

/-- Non-floatness of the stats entry visible under a probe key. -/
def optNF (o : Option MStats) : Prop := mstatsNonFloat (o.getD initMStats) = true

/-- The runs/wins projection of a per-model entry: the counters whose updates
are exact integer increments whatever the metric values are. -/
def projRW (e : MStats) : Nat × Nat := (e.runs, e.wins)

/-- `optStep` observed through the runs/wins projection. -/
def optStepRW (key : PyVal) (o : Option (Nat × Nat)) (s : Session) : Option (Nat × Nat) :=
  if pyHashable s.model && pyEq key s.model then
    some ((o.getD (0, 0)).1 + 1, (o.getD (0, 0)).2 + (if pyTruthy s.won then 1 else 0))
  else o

/-- Aggregating a bare list of already-normalized records (lines 79-96 only;
the file name only feeds the error text). -/
def aggRecords (l : List Session) : AggState :=
  l.foldl (fun st s => aggregateSession st "file" s) initAgg

def tripleRuns (t : GStats × GStats × GStats) : Nat := t.1.runs + t.2.1.runs + t.2.2.runs

def tripleWins (t : GStats × GStats × GStats) : Nat := t.1.wins + t.2.1.wins + t.2.2.wins

def bucketRunsSum (st : AggState) : Nat :=
  st.goal_on.runs + st.goal_off.runs + st.goal_unknown.runs

def bucketWinsSum (st : AggState) : Nat :=
  st.goal_on.wins + st.goal_off.wins + st.goal_unknown.wins

/-! ### CSV reporter (lines 101-106) -/

/-- Zero padding on the left, for fractional digit strings. -/
def padZeros (w : Nat) (s : String) : String :=
  String.mk (List.replicate (w - s.length) '0') ++ s

/-- `format(q, ".precf")` for a numeric value, in pure integer arithmetic:
round `q * 10^prec` to the nearest integer and insert the decimal point.
(Digit-level behaviour of binary-float rounding is abstracted; no claim
depends on the printed digits.) -/
def fmtFixed (prec : Nat) (q : ℚ) : String :=
  let p : Int := (10 : Int) ^ prec
  let scaled : Int := Int.fdiv (2 * q.num * p + (q.den : Int)) (2 * (q.den : Int))
  let sign : String := if scaled < 0 then "-" else ""
  let a : Nat := scaled.natAbs
  if prec = 0 then sign ++ toString a
  else sign ++ toString (a / p.toNat) ++ "." ++ padZeros prec (toString (a % p.toNat))

/-- `str(float)`: exact decimal when the denominator allows it, else a
12-digit decimal approximation with trailing zeros trimmed. -/
def fmtFloatStr (q : ℚ) : String :=
  if q.den = 1 then toString q.num ++ ".0"
  else
    let s := fmtFixed 12 q
    let cs := s.data.reverse.dropWhile (fun c => c = '0')
    let cs := if cs.headD ' ' = '.' then '0' :: cs else cs
    String.mk cs.reverse

mutual
/-- Python `repr`, as used for values nested inside containers. -/
def pyReprOf : PyVal → String
  | .pynone => "None"
  | .pybool b => if b then "True" else "False"
  | .pyint n => toString n
  | .pyfloat q => fmtFloatStr q
  | .pystr s => String.singleton (Char.ofNat 39) ++ s ++ String.singleton (Char.ofNat 39)
  | .pylist xs => "[" ++ pyReprList xs ++ "]"
  | .pydict kvs => "\x7b" ++ pyReprDict kvs ++ "\x7d"

def pyReprList : List PyVal → String
  | [] => ""
  | [x] => pyReprOf x
  | x :: xs => pyReprOf x ++ ", " ++ pyReprList xs

def pyReprDict : List (String × PyVal) → String
  | [] => ""
  | [(k, v)] => String.singleton (Char.ofNat 39) ++ k ++ String.singleton (Char.ofNat 39) ++ ": " ++ pyReprOf v
  | (k, v) :: kvs =>
    String.singleton (Char.ofNat 39) ++ k ++ String.singleton (Char.ofNat 39) ++ ": " ++ pyReprOf v ++ ", " ++ pyReprDict kvs
end

/-- Python `str(v)` / `format(v, "")`, as the plain `{...}` f-string fields
use; never raises. -/
def pyStrOf : PyVal → String
  | .pystr s => s
  | v => pyReprOf v

/-- `format(v, ".precf")`: fixed-point formatting, raising for values that do
not support the `f` format code (this is what crashes the CSV stage on a
non-numeric cost). -/
def fmtF (prec : Nat) (v : PyVal) : Except String String :=
  match v.toQ with
  | some q => .ok (fmtFixed prec q)
  | none => .error "ValueError: unknown format code f for object"

/-- The fixed CSV header row (line 103). -/
def csvHeader : String :=
  "Timestamp,Model,GoalCoordsOn,Won,StoppedByUser,MaxMoves,TooManyRevisits,Error,TotalMoves,SuccessfulMoves,WallCollisions,UniquePositions,Backtracks,BacktrackRate,TotalTokens,CostUSD"

/-- One CSV data row (line 105), fields in source order; the backtrack rate
uses `:.1f` and the cost `:.4f`, everything else plain `str`. -/
def renderRow (s : Session) : Except String String := do
  let rate ← fmtF 1 s.backtrack_rate
  let cost ← fmtF 4 s.cost_usd
  .ok (s.timestamp ++ "," ++ pyStrOf s.model ++ "," ++ pyStrOf s.goal_coords_on ++ ","
    ++ pyStrOf s.won ++ "," ++ pyStrOf s.stopped_by_user ++ "," ++ pyStrOf s.max_moves ++ ","
    ++ pyStrOf s.too_many_revisits ++ "," ++ pyStrOf s.error_flag ++ ","
    ++ pyStrOf s.total_moves ++ "," ++ pyStrOf s.successful_moves ++ ","
    ++ pyStrOf s.wall_collisions ++ "," ++ pyStrOf s.unique_positions ++ ","
    ++ pyStrOf s.backtracks ++ "," ++ rate ++ "," ++ pyStrOf s.total_tokens ++ "," ++ cost)

/-- Sequential `f.write` of the data rows: rows written so far, plus the
exception that interrupted the loop, if any (uncaught: it escapes `main`). -/
def writeRows : List String → List Session → List String × Option String
  | acc, [] => (acc, none)
  | acc, s :: rest =>
    match renderRow s with
    | .ok line => writeRows (acc ++ [line]) rest
    | .error msg => (acc, some msg)

/-- The whole CSV stage: header row then one row per collected session. -/
def writeCSV (sessions : List Session) : List String × Option String :=
  writeRows [csvHeader] sessions

/-! ### Console reporter (lines 109-152) -/

/-- The scan predicate: `sessions_dir.glob("*.json")` restricted to names not
ending in `_api.json` (lines 23-26).  `pathlib` glob does not special-case
leading dots, so `*.json` selects exactly the names ending in `.json`. -/
def sessionFilter (name : String) : Bool :=
  strEndsWith name ".json" && !strEndsWith name "_api.json"

/-- `sorted([f for f in sessions_dir.glob("*.json") if not
f.name.endswith("_api.json")])`: paths in one directory compare by their
name string, code-point lexicographically. -/
def scanSessionFiles (names : List String) : List String :=
  List.insertionSort (fun a b => strLeB a b = true) (names.filter sessionFilter)

/-- A session file whose model name is a JSON list: normalization succeeds,
but using the list as a dict key raises `TypeError: unhashable type`
*after* the record was appended to `all_sessions`. -/
def dataBadModel : PyVal := .pydict [("model", .pydict [("name", .pylist [])])]

def fileBadModel : String × Except String PyVal :=
  ("2026-01-01_000000_bad.json", .ok dataBadModel)

/-- A session file whose goal-coordinates setting is the JSON number 1. -/
def dataGoalOne : PyVal := .pydict [("settings", .pydict [("showGoalCoordinates", .pyint 1)])]

/-- A well-formed winning session for model A: 10 moves, 2 backtracks. -/
def dataWinA : PyVal :=
  .pydict [("model", .pydict [("name", .pystr "A")]),
           ("outcome", .pydict [("won", .pybool true)]),
           ("metrics", .pydict [("totalMoves", .pyint 10), ("backtrackCount", .pyint 2)])]

/-- A well-formed empty session file. -/
def fileGood : String × Except String PyVal := ("c.json", .ok (.pydict []))

/-- The all-defaults record the normalizer produces for a JSON object with
none of the optional sub-objects (cf. claim C6). -/
def defaultSession (name : String) : Session :=
  { timestamp := timestampOf name
    model := .pystr "Unknown"
    goal_coords_on := .pystr "unknown"
    won := .pybool false
    stopped_by_user := .pybool false
    max_moves := .pybool false
    too_many_revisits := .pybool false
    error_flag := .pybool false
    total_moves := .pyint 0
    successful_moves := .pyint 0
    wall_collisions := .pyint 0
    unique_positions := .pyint 0
    backtracks := .pyint 0
    total_tokens := .pyint 0
    cost_usd := .pyint 0
    backtrack_rate := .pyint 0 }

/-- A default session with a chosen goal-coordinates value. -/
def sessGoal (v : PyVal) : Session :=
  { defaultSession "x.json" with goal_coords_on := v }

/-- The record normalized from `dataGoalOne`. -/
def sessGoalOne : Session :=
  { defaultSession "a.json" with goal_coords_on := .pyint 1 }

/-- The record normalized from `dataWinA`. -/
def sessWinA : Session :=
  { defaultSession "2026-01-13_021011_modelA.json" with
      model := .pystr "A"
      won := .pybool true
      total_moves := .pyint 10
      backtracks := .pyint 2
      backtrack_rate := .pyfloat 20 }

/-- A record whose `totalMoves` metric is the float `1e16` (a JSON file with
`"metrics": {"totalMoves": 1e16}` normalizes to this).  `10^16` is
exactly representable in binary64 (it is `5^16 * 2^16`, a 54-bit value with a
trailing zero bit), and its unit in the last place is 2, so adding `1.0` to
it rounds back down, while adding `2.0` lands exactly. -/
def sessF16 : Session :=
  { defaultSession "f16.json" with
      model := .pystr "A"
      total_moves := .pyfloat 10000000000000000 }

/-- A record whose `totalMoves` metric is the float `1.0`. -/
def sessF1 : Session :=
  { defaultSession "f1.json" with
      model := .pystr "A"
      total_moves := .pyfloat 1 }

/-! ### Equivalence of the computable rational operations -/

theorem intRat_eq (n d : Int) : intRat n d = (n : ℚ) / (d : ℚ) := by
  unfold intRat
  split
  · rename_i h
    rw [Rat.mkRat_eq_divInt, Rat.divInt_eq_div]
    have h2 : (((-d).toNat : Int) : ℚ) = ((-d : Int) : ℚ) := by
      rw [Int.toNat_of_nonneg (by omega)]
    push_cast at h2 ⊢
    rw [h2]
    push_cast
    rw [neg_div_neg_eq]
  · rename_i h
    rw [Rat.mkRat_eq_divInt, Rat.divInt_eq_div]
    rw [Int.toNat_of_nonneg (by omega)]

theorem ratAdd_eq (a b : ℚ) : ratAdd a b = a + b := by
  unfold ratAdd
  rw [intRat_eq]
  have ha : ((a.den : ℚ)) ≠ 0 := by
    exact_mod_cast Rat.den_ne_zero a
  have hb : ((b.den : ℚ)) ≠ 0 := by
    exact_mod_cast Rat.den_ne_zero b
  push_cast
  conv_rhs => rw [← Rat.num_div_den a, ← Rat.num_div_den b]
  field_simp

theorem ratMul_eq (a b : ℚ) : ratMul a b = a * b := by
  unfold ratMul
  rw [intRat_eq]
  have ha : ((a.den : ℚ)) ≠ 0 := by
    exact_mod_cast Rat.den_ne_zero a
  have hb : ((b.den : ℚ)) ≠ 0 := by
    exact_mod_cast Rat.den_ne_zero b
  push_cast
  conv_rhs => rw [← Rat.num_div_den a, ← Rat.num_div_den b]
  field_simp

theorem ratDiv_eq (a b : ℚ) : ratDiv a b = a / b := by
  unfold ratDiv
  rw [intRat_eq]
  rcases eq_or_ne b 0 with hb | hb
  · subst hb
    simp
  · have hbn : ((b.num : ℚ)) ≠ 0 := by
      exact_mod_cast Rat.num_ne_zero.mpr hb
    have ha : ((a.den : ℚ)) ≠ 0 := by
      exact_mod_cast Rat.den_ne_zero a
    have hbd : ((b.den : ℚ)) ≠ 0 := by
      exact_mod_cast Rat.den_ne_zero b
    push_cast
    conv_rhs => rw [← Rat.num_div_den a, ← Rat.num_div_den b]
    field_simp

/-! ### The string order used by the scan is total and transitive -/

theorem charToNat_inj {x y : Char} (h : x.toNat = y.toNat) : x = y := by
  simpa [Char.ext_iff, UInt32.ext_iff] using h

theorem charLt_of_le_ne {x y : Char} (h : charLeB x y = true) (hne : x ≠ y) :
    x.toNat < y.toNat := by
  simp only [charLeB, decide_eq_true_eq] at h
  rcases Nat.lt_or_ge x.toNat y.toNat with hlt | hge
  · exact hlt
  · exact absurd (charToNat_inj (Nat.le_antisymm h hge)) hne

theorem charListLe_total : ∀ a b : List Char, charListLe a b = true ∨ charListLe b a = true
  | [], _ => Or.inl rfl
  | _ :: _, [] => Or.inr rfl
  | x :: xs, y :: ys => by
    by_cases hxy : x = y
    · subst hxy
      simpa [charListLe] using charListLe_total xs ys
    · simp only [charListLe, if_neg hxy, if_neg (Ne.symm hxy), charLeB,
        decide_eq_true_eq]
      omega

theorem charListLe_trans :
    ∀ a b c : List Char, charListLe a b = true → charListLe b c = true →
      charListLe a c = true
  | [], _, _ => by intro _ _; rfl
  | x :: xs, [], _ => by intro h _; simp [charListLe] at h
  | _ :: _, _ :: _, [] => by intro _ h; simp [charListLe] at h
  | x :: xs, y :: ys, z :: zs => by
    intro h1 h2
    by_cases hxy : x = y <;> by_cases hyz : y = z
    · subst hxy; subst hyz
      simp only [charListLe, if_pos rfl] at h1 h2 ⊢
      exact charListLe_trans xs ys zs h1 h2
    · subst hxy
      simp only [charListLe, if_pos rfl, if_neg hyz] at h1 h2 ⊢
      exact h2
    · subst hyz
      simp only [charListLe, if_neg hxy] at h1 ⊢
      exact h1
    · simp only [charListLe, if_neg hxy, if_neg hyz] at h1 h2
      have hx : x.toNat < y.toNat := charLt_of_le_ne h1 hxy
      have hy : y.toNat < z.toNat := charLt_of_le_ne h2 hyz
      have hxz : x ≠ z := by
        intro h; subst h; omega
      simp only [charListLe, if_neg hxz, charLeB, decide_eq_true_eq]
      omega

instance : IsTotal String (fun a b => strLeB a b = true) :=
  ⟨fun a b => charListLe_total a.data b.data⟩

instance : IsTrans String (fun a b => strLeB a b = true) :=
  ⟨fun a b c => charListLe_trans a.data b.data c.data⟩

/-- C8: the directory scan selects exactly the `.json` entries not ending in
`_api.json`, in lexicographically sorted order, so a `_api.json` file never
appears in the scan result (and hence, since `mainRun` only processes
`scanSessionFiles` output, in no aggregate or CSV row). -/
theorem claim_C8_scan (names : List String) :
    List.Sorted (fun a b => strLeB a b = true) (scanSessionFiles names)
    ∧ (∀ n, n ∈ scanSessionFiles names ↔
        (n ∈ names ∧ strEndsWith n ".json" = true ∧ strEndsWith n "_api.json" = false))
    ∧ (∀ n, strEndsWith n "_api.json" = true → n ∉ scanSessionFiles names) := by
  refine ⟨List.sorted_insertionSort _ _, fun n => ?_, fun n h hmem => ?_⟩
  · rw [scanSessionFiles, List.mem_insertionSort, List.mem_filter, sessionFilter]
    simp [Bool.and_eq_true, Bool.not_eq_true']
  · rw [scanSessionFiles, List.mem_insertionSort, List.mem_filter, sessionFilter] at hmem
    rw [h] at hmem
    simp at hmem

theorem claim_C8_scan_witness :
    "b_api.json" ∉ scanSessionFiles ["b_api.json", "b.json", "a.json"]
    ∧ "a.json" ∈ scanSessionFiles ["b_api.json", "b.json", "a.json"] := by
  constructor
  · exact (claim_C8_scan ["b_api.json", "b.json", "a.json"]).2.2 "b_api.json" (by decide)
  · exact ((claim_C8_scan ["b_api.json", "b.json", "a.json"]).2.1 "a.json").mpr
      ⟨by decide, by decide, by decide⟩

/-- C10: the goal-coordinate bucket classification uses Python `==` against
`True`/`False`, so the JSON number 1 (int or float is irrelevant to Python
`==`) lands in the "on" bucket and the number 0 in the "off" bucket, while
strings, null, containers, and any number other than 0 and 1 land in
"unknown". -/
theorem claim_C10_bucket_classification :
    classifyGoal (.pyint 1) = .gcOn
    ∧ classifyGoal (.pyint 0) = .gcOff
    ∧ (∀ st s, s.goal_coords_on = .pyint 1 →
        (updateBuckets st s).goal_on = bucketAdd st.goal_on s
        ∧ (updateBuckets st s).goal_off = st.goal_off
        ∧ (updateBuckets st s).goal_unknown = st.goal_unknown)
    ∧ (∀ st s, s.goal_coords_on = .pyint 0 →
        (updateBuckets st s).goal_off = bucketAdd st.goal_off s
        ∧ (updateBuckets st s).goal_on = st.goal_on
        ∧ (updateBuckets st s).goal_unknown = st.goal_unknown)
    ∧ (∀ t : String, classifyGoal (.pystr t) = .gcUnknown)
    ∧ classifyGoal .pynone = .gcUnknown
    ∧ (∀ n : Int, n ≠ 0 → n ≠ 1 → classifyGoal (.pyint n) = .gcUnknown)
    ∧ (∀ q : ℚ, q ≠ 0 → q ≠ 1 → classifyGoal (.pyfloat q) = .gcUnknown)
    ∧ (∀ xs, classifyGoal (.pylist xs) = .gcUnknown)
    ∧ (∀ kvs, classifyGoal (.pydict kvs) = .gcUnknown) := by
  refine ⟨rfl, rfl, ?_, ?_, ?_, rfl, ?_, ?_, ?_, ?_⟩
  · intro st s h
    unfold updateBuckets
    rw [h]
    exact ⟨rfl, rfl, rfl⟩
  · intro st s h
    unfold updateBuckets
    rw [h]
    exact ⟨rfl, rfl, rfl⟩
  · intro t
    rfl
  · intro n h0 h1
    simp [classifyGoal, pyEq, h0, h1]
  · intro q h0 h1
    simp [classifyGoal, pyEq, h0, h1]
  · intro xs
    simp [classifyGoal, pyEq]
  · intro kvs
    simp [classifyGoal, pyEq]

/-! ### Inversion of the normalizer -/

theorem exc_bind_ok {α β : Type} (a : α) (f : α → Except String β) :
    (Except.ok a : Except String α) >>= f = f a := rfl

theorem exc_bind_err {α β : Type} (e : String) (f : α → Except String β) :
    (Except.error e : Except String α) >>= f = (.error e : Except String β) := rfl

theorem normalizeSession_ok_parts {name : String} {data : PyVal} {s : Session}
    (h : normalizeSession name data = .ok s) :
    ∃ settings,
      pyGet data "settings" (.pydict []) = .ok settings
      ∧ pyGet settings "showGoalCoordinates" (.pystr "unknown") = .ok s.goal_coords_on
      ∧ pyRate s.backtracks s.total_moves = .ok s.backtrack_rate := by
  unfold normalizeSession at h
  cases g1 : pyGet data "settings" (.pydict []) with
  | error e => rw [g1, exc_bind_err] at h; cases h
  | ok settings =>
  rw [g1, exc_bind_ok] at h
  cases g2 : pyGet data "outcome" (.pydict []) with
  | error e => rw [g2, exc_bind_err] at h; cases h
  | ok outcomeV =>
  rw [g2, exc_bind_ok] at h
  cases g3 : pyGet data "metrics" (.pydict []) with
  | error e => rw [g3, exc_bind_err] at h; cases h
  | ok metrics =>
  rw [g3, exc_bind_ok] at h
  cases g4 : pyGet data "tokenUsage" (.pydict []) with
  | error e => rw [g4, exc_bind_err] at h; cases h
  | ok tokens =>
  rw [g4, exc_bind_ok] at h
  cases g5 : pyGet data "cost" (.pydict []) with
  | error e => rw [g5, exc_bind_err] at h; cases h
  | ok cost =>
  rw [g5, exc_bind_ok] at h
  cases g6 : pyGet data "model" (.pydict []) with
  | error e => rw [g6, exc_bind_err] at h; cases h
  | ok modelObj =>
  rw [g6, exc_bind_ok] at h
  cases g7 : pyGet modelObj "name" (.pystr "Unknown") with
  | error e => rw [g7, exc_bind_err] at h; cases h
  | ok model =>
  rw [g7, exc_bind_ok] at h
  cases g8 : pyGet settings "showGoalCoordinates" (.pystr "unknown") with
  | error e => rw [g8, exc_bind_err] at h; cases h
  | ok goal =>
  rw [g8, exc_bind_ok] at h
  cases g9 : pyGet outcomeV "won" (.pybool false) with
  | error e => rw [g9, exc_bind_err] at h; cases h
  | ok won =>
  rw [g9, exc_bind_ok] at h
  cases g10 : pyGet outcomeV "stoppedByUser" (.pybool false) with
  | error e => rw [g10, exc_bind_err] at h; cases h
  | ok stopped =>
  rw [g10, exc_bind_ok] at h
  cases g11 : pyGet outcomeV "reachedMaxMoves" (.pybool false) with
  | error e => rw [g11, exc_bind_err] at h; cases h
  | ok maxm =>
  rw [g11, exc_bind_ok] at h
  cases g12 : pyGet outcomeV "tooManyRevisits" (.pybool false) with
  | error e => rw [g12, exc_bind_err] at h; cases h
  | ok revis =>
  rw [g12, exc_bind_ok] at h
  cases g13 : pyGet outcomeV "errorOccurred" (.pybool false) with
  | error e => rw [g13, exc_bind_err] at h; cases h
  | ok errv =>
  rw [g13, exc_bind_ok] at h
  cases g14 : pyGet metrics "totalMoves" (.pyint 0) with
  | error e => rw [g14, exc_bind_err] at h; cases h
  | ok totalMoves =>
  rw [g14, exc_bind_ok] at h
  cases g15 : pyGet metrics "successfulMoves" (.pyint 0) with
  | error e => rw [g15, exc_bind_err] at h; cases h
  | ok succMoves =>
  rw [g15, exc_bind_ok] at h
  cases g16 : pyGet metrics "wallCollisions" (.pyint 0) with
  | error e => rw [g16, exc_bind_err] at h; cases h
  | ok wallColl =>
  rw [g16, exc_bind_ok] at h
  cases g17 : pyGet metrics "uniquePositionsVisited" (.pyint 0) with
  | error e => rw [g17, exc_bind_err] at h; cases h
  | ok uniqPos =>
  rw [g17, exc_bind_ok] at h
  cases g18 : pyGet metrics "backtrackCount" (.pyint 0) with
  | error e => rw [g18, exc_bind_err] at h; cases h
  | ok backs =>
  rw [g18, exc_bind_ok] at h
  cases g19 : pyGet tokens "totalTokens" (.pyint 0) with
  | error e => rw [g19, exc_bind_err] at h; cases h
  | ok totalTokens =>
  rw [g19, exc_bind_ok] at h
  cases g20 : pyGet cost "totalCostUsd" (.pyint 0) with
  | error e => rw [g20, exc_bind_err] at h; cases h
  | ok costUsd =>
  rw [g20, exc_bind_ok] at h
  cases g21 : pyRate backs totalMoves with
  | error e => rw [g21, exc_bind_err] at h; cases h
  | ok rate =>
  rw [g21, exc_bind_ok] at h
  cases h
  exact ⟨settings, rfl, g8, g21⟩

theorem pyRate_int (b t : Int) :
    pyRate (.pyint b) (.pyint t) =
      .ok (if 0 < t then .pyfloat (ratMul (ratDiv (b : ℚ) (t : ℚ)) 100) else .pyint 0) := by
  by_cases h : 0 < t
  · have hq : (0 : ℚ) < (t : ℚ) := by exact_mod_cast h
    simp [pyRate, pyGtZero, pyToNum, PyVal.toQ, hq, h, exc_bind_ok]
  · have hq : ¬ (0 : ℚ) < (t : ℚ) := by exact_mod_cast h
    simp [pyRate, pyGtZero, pyToNum, PyVal.toQ, hq, h, exc_bind_ok]

/-- C3: for every record the normalizer produces with integer move metrics,
the backtrack rate is 0 when `total_moves` is not positive, and exactly
`100 * backtracks / total_moves` (computed in `ℚ`, so "within floating
rounding" is subsumed) when `total_moves > 0`. -/
theorem claim_C3_backtrack_rate (name : String) (data : PyVal) (s : Session)
    (h : normalizeSession name data = .ok s) (t b : Int)
    (ht : s.total_moves = .pyint t) (hb : s.backtracks = .pyint b) :
    (t ≤ 0 → s.backtrack_rate = .pyint 0)
    ∧ (0 < t → s.backtrack_rate = .pyfloat (100 * (b : ℚ) / (t : ℚ))) := by
  obtain ⟨settings, _, _, hr⟩ := normalizeSession_ok_parts h
  rw [ht, hb, pyRate_int] at hr
  constructor
  · intro hle
    rw [if_neg (by omega)] at hr
    exact (Except.ok.injEq _ _).mp hr.symm |>.symm ▸ rfl
  · intro hpos
    rw [if_pos hpos] at hr
    have := (Except.ok.injEq _ _).mp hr
    rw [← this, ratMul_eq, ratDiv_eq]
    ring_nf

theorem claim_C3_backtrack_rate_witness :
    normalizeSession "2026-01-13_021011_modelA.json" dataWinA = .ok sessWinA
    ∧ (0 : Int) < 10
    ∧ sessWinA.backtrack_rate = .pyfloat (100 * (2 : ℚ) / (10 : ℚ)) := by
  refine ⟨rfl, by decide, ?_⟩
  exact (claim_C3_backtrack_rate "2026-01-13_021011_modelA.json" dataWinA sessWinA rfl
    10 2 rfl rfl).2 (by decide)

/-- C4 as stated is false: a present non-boolean `showGoalCoordinates` value
is passed through into the record unchanged.  Concretely, the JSON number 1
yields a record whose goal-coordinates field is neither a boolean nor the
string "unknown". -/
theorem claim_C4_cex :
    normalizeSession "a.json" dataGoalOne = .ok sessGoalOne
    ∧ sessGoalOne.goal_coords_on ≠ .pybool true
    ∧ sessGoalOne.goal_coords_on ≠ .pybool false
    ∧ sessGoalOne.goal_coords_on ≠ .pystr "unknown" := by
  refine ⟨rfl, ?_, ?_, ?_⟩ <;> simp [sessGoalOne, defaultSession]

/-- C4 (amended): the goal-coordinates field of the produced record is
exactly the value the settings sub-object supplies for
`showGoalCoordinates` — whatever its type — and the literal string
"unknown" exactly when the key is absent. -/
theorem claim_C4_goal_passthrough (name : String) (data settings : PyVal) (s : Session)
    (h : normalizeSession name data = .ok s)
    (hs : pyGet data "settings" (.pydict []) = .ok settings) :
    (∀ v, dictFind settings "showGoalCoordinates" = some v → s.goal_coords_on = v)
    ∧ (dictFind settings "showGoalCoordinates" = none → s.goal_coords_on = .pystr "unknown") := by
  obtain ⟨settings0, hs0, hg, _⟩ := normalizeSession_ok_parts h
  rw [hs0] at hs
  cases hs
  cases settings with
  | pydict kvs =>
    have hg' :
        (((kvs.find? (fun kv => decide (kv.1 = "showGoalCoordinates"))).map (·.2)).getD
          (.pystr "unknown")) = s.goal_coords_on := by
      have h2 := hg
      simp only [pyGet, Except.ok.injEq] at h2
      exact h2
    constructor
    · intro v hv
      simp only [dictFind] at hv
      rw [← hg', hv]
      rfl
    · intro hv
      simp only [dictFind] at hv
      rw [← hg', hv]
      rfl
  | pynone => exact absurd hg (by simp [pyGet])
  | pybool b => exact absurd hg (by simp [pyGet])
  | pyint n => exact absurd hg (by simp [pyGet])
  | pyfloat q => exact absurd hg (by simp [pyGet])
  | pystr t => exact absurd hg (by simp [pyGet])
  | pylist l => exact absurd hg (by simp [pyGet])

theorem claim_C4_goal_passthrough_witness :
    sessGoalOne.goal_coords_on = .pyint 1 :=
  (claim_C4_goal_passthrough "a.json" dataGoalOne
    (.pydict [("showGoalCoordinates", .pyint 1)]) sessGoalOne rfl rfl).1 (.pyint 1) rfl

theorem pyGet_absent {kvs : List (String × PyVal)} {k : String} {d : PyVal}
    (h : kvs.find? (fun kv => decide (kv.1 = k)) = none) : pyGet (.pydict kvs) k d = .ok d := by
  simp [pyGet, h]

/-- C6: a JSON object supplying none of the sub-objects `settings`,
`outcome`, `metrics`, `tokenUsage`, `cost`, `model` still normalizes without
error, to the all-defaults record: numeric fields 0, outcome booleans false,
goal-coordinates flag the string "unknown", model name "Unknown". -/
theorem claim_C6_safe_defaults (name : String) (kvs : List (String × PyVal))
    (hs : kvs.find? (fun kv => decide (kv.1 = "settings")) = none)
    (ho : kvs.find? (fun kv => decide (kv.1 = "outcome")) = none)
    (hm : kvs.find? (fun kv => decide (kv.1 = "metrics")) = none)
    (htk : kvs.find? (fun kv => decide (kv.1 = "tokenUsage")) = none)
    (hc : kvs.find? (fun kv => decide (kv.1 = "cost")) = none)
    (hmo : kvs.find? (fun kv => decide (kv.1 = "model")) = none) :
    normalizeSession name (.pydict kvs) = .ok (defaultSession name) := by
  unfold normalizeSession
  rw [pyGet_absent hs, exc_bind_ok, pyGet_absent ho, exc_bind_ok, pyGet_absent hm, exc_bind_ok,
      pyGet_absent htk, exc_bind_ok, pyGet_absent hc, exc_bind_ok, pyGet_absent hmo, exc_bind_ok]
  rfl

theorem claim_C6_safe_defaults_witness :
    normalizeSession "2026-01-13_021011_x.json" (.pydict []) =
      .ok (defaultSession "2026-01-13_021011_x.json") :=
  claim_C6_safe_defaults "2026-01-13_021011_x.json" [] rfl rfl rfl rfl rfl rfl

theorem claim_C10_bucket_classification_witness :
    classifyGoal (.pystr "yes") = .gcUnknown
    ∧ classifyGoal (.pyint 7) = .gcUnknown
    ∧ classifyGoal (.pyfloat (1 / 2)) = .gcUnknown
    ∧ (updateBuckets initAgg (sessGoal (.pyint 1))).goal_on
        = bucketAdd initAgg.goal_on (sessGoal (.pyint 1))
    ∧ (updateBuckets initAgg (sessGoal (.pyint 0))).goal_off
        = bucketAdd initAgg.goal_off (sessGoal (.pyint 0)) := by
  refine ⟨claim_C10_bucket_classification.2.2.2.2.1 "yes",
    claim_C10_bucket_classification.2.2.2.2.2.2.1 7 (by decide) (by decide),
    claim_C10_bucket_classification.2.2.2.2.2.2.2.1 (1 / 2) (by norm_num) (by norm_num),
    (claim_C10_bucket_classification.2.2.1 initAgg (sessGoal (.pyint 1)) rfl).1,
    (claim_C10_bucket_classification.2.2.2.1 initAgg (sessGoal (.pyint 0)) rfl).1⟩

/-- C1 as stated is false: a file can raise an exception during processing
(an error line is printed for it) and still contribute a row to the session
list.  `fileBadModel` normalizes fine but its model name is a list, so
`model_stats[model]` raises `TypeError: unhashable type` *after* the append:
one error printed, yet one session row collected. -/
theorem claim_C1_cex :
    (processFile initAgg fileBadModel).errors.length = 1
    ∧ (processFile initAgg fileBadModel).all_sessions.length = 1 := ⟨rfl, rfl⟩

/-- C1 (amended): an exception raised while reading, parsing or normalizing
a file — before the record is appended — is caught, an error message naming
the file is printed, and the state (session list, per-model counters, all
three goal buckets) is left exactly as it was; processing continues with the
next file since the fold is total. -/
theorem claim_C1_skip_before_append (st : AggState) (f : String × Except String PyVal)
    (msg : String) (h : parseNorm f = .error msg) :
    (processFile st f).all_sessions = st.all_sessions
    ∧ (processFile st f).model_stats = st.model_stats
    ∧ (processFile st f).goal_on = st.goal_on
    ∧ (processFile st f).goal_off = st.goal_off
    ∧ (processFile st f).goal_unknown = st.goal_unknown
    ∧ (processFile st f).errors = st.errors ++ ["Error parsing " ++ f.1 ++ ": " ++ msg] := by
  unfold processFile
  rw [h]
  exact ⟨rfl, rfl, rfl, rfl, rfl, rfl⟩

theorem claim_C1_skip_before_append_witness :
    (processFile initAgg ("nope.json", .error "invalid json")).all_sessions = []
    ∧ (processFile initAgg ("nope.json", .error "invalid json")).errors
        = ["Error parsing nope.json: invalid json"] := by
  refine ⟨(claim_C1_skip_before_append initAgg ("nope.json", .error "invalid json")
    "invalid json" rfl).1, ?_⟩
  have h := (claim_C1_skip_before_append initAgg ("nope.json", .error "invalid json")
    "invalid json" rfl).2.2.2.2.2
  simpa [initAgg] using h

/-! ### Session list length bookkeeping (for C2) -/

theorem updateBuckets_sessions (st : AggState) (s : Session) :
    (updateBuckets st s).all_sessions = st.all_sessions := by
  unfold updateBuckets
  split <;> rfl

theorem agg_all_sessions (st : AggState) (n : String) (s : Session) :
    (aggregateSession st n s).all_sessions = st.all_sessions := by
  simp only [aggregateSession]
  repeat' split
  all_goals first
  | rfl
  | exact updateBuckets_sessions _ _

theorem processFile_sessions_length (st : AggState) (f : String × Except String PyVal) :
    (processFile st f).all_sessions.length =
      st.all_sessions.length + (if fileAppends f then 1 else 0) := by
  unfold processFile fileAppends
  cases hp : parseNorm f with
  | error msg => simp [addError]
  | ok s => simp [agg_all_sessions]

theorem foldl_sessions_length (files : List (String × Except String PyVal)) (st : AggState) :
    (files.foldl processFile st).all_sessions.length =
      st.all_sessions.length + files.countP fileAppends := by
  induction files generalizing st with
  | nil => simp
  | cons f rest ih =>
    rw [List.foldl_cons, ih, processFile_sessions_length, List.countP_cons]
    cases hp : fileAppends f <;> simp [hp] <;> omega

theorem writeRows_length_of_ok (sessions : List Session) (acc : List String)
    (h : (writeRows acc sessions).2 = none) :
    (writeRows acc sessions).1.length = acc.length + sessions.length := by
  induction sessions generalizing acc with
  | nil => simp [writeRows]
  | cons s rest ih =>
    unfold writeRows at h ⊢
    cases hr : renderRow s with
    | ok line =>
      rw [hr] at h
      show (writeRows (acc ++ [line]) rest).1.length = acc.length + (s :: rest).length
      have h2 : (writeRows (acc ++ [line]) rest).2 = none := h
      rw [ih _ h2]
      simp
      omega
    | error msg =>
      rw [hr] at h
      cases h

theorem countP_bool_add {α : Type} (p : α → Bool) (l : List α) :
    l.countP p + l.countP (fun a => !(p a)) = l.length := by
  induction l with
  | nil => rfl
  | cons a t ih =>
    rw [List.countP_cons, List.countP_cons]
    cases hpa : p a <;> simp [hpa] <;> omega

/-- C2 as stated is false: a single file that raises an exception (one error
line is printed) can still yield a data row, making the CSV 2 rows where the
claim predicts (1 − 1) + 1 = 1. -/
theorem claim_C2_cex :
    (runLoop [fileBadModel]).errors.length = 1
    ∧ (writeCSV (runLoop [fileBadModel]).all_sessions).2 = none
    ∧ (writeCSV (runLoop [fileBadModel]).all_sessions).1.length = 2 := ⟨rfl, rfl, rfl⟩

/-- C2 (amended): when the CSV stage raises nothing, the CSV line count plus
the number of files that raised *before their record was appended* equals the
number of scanned files plus one (header); a file raising after the append
still contributes its row. -/
theorem claim_C2_csv_rows (files : List (String × Except String PyVal))
    (h : (writeCSV (runLoop files).all_sessions).2 = none) :
    (writeCSV (runLoop files).all_sessions).1.length
      + files.countP (fun f => !(fileAppends f)) = files.length + 1 := by
  unfold writeCSV at h ⊢
  rw [writeRows_length_of_ok _ _ h]
  rw [show (runLoop files).all_sessions.length = files.countP fileAppends from by
    simpa [runLoop, initAgg] using foldl_sessions_length files initAgg]
  have := countP_bool_add fileAppends files
  simp only [List.length_singleton]
  omega

theorem claim_C2_csv_rows_witness :
    (writeCSV (runLoop [("a.json", .ok (.pydict [])), ("bad.json", .error "boom")]).all_sessions).2
      = none
    ∧ (writeCSV (runLoop [("a.json", .ok (.pydict [])),
        ("bad.json", .error "boom")]).all_sessions).1.length
      + [("a.json", .ok (.pydict [])), ("bad.json", .error "boom")].countP
          (fun f => !(fileAppends f))
      = [("a.json", (.ok (.pydict []) : Except String PyVal)),
         ("bad.json", .error "boom")].length + 1 :=
  ⟨rfl, claim_C2_csv_rows [("a.json", .ok (.pydict [])), ("bad.json", .error "boom")] rfl⟩

/-! ### Python `==` is symmetric and transitive on hashable values -/

theorem cast_ite_bool (a : Bool) :
    (((if a then (1 : Int) else 0) : Int) : ℚ) = if a then (1 : ℚ) else 0 := by
  cases a <;> simp

theorem int_beq_cast (m n : Int) : (m == n) = (((m : ℚ)) == ((n : ℚ))) := by
  rw [Bool.eq_iff_iff]
  simp only [beq_iff_eq]
  exact ⟨fun h => by exact_mod_cast h, fun h => by exact_mod_cast h⟩

theorem pyEq_num_toQ (a b : PyVal) (ha : a.isNum = true) (hb : b.isNum = true) :
    pyEq a b = (a.toQ.getD 0 == b.toQ.getD 0) := by
  cases a <;> cases b <;>
    simp only [PyVal.isNum, PyVal.toQ, Option.isSome] at ha hb <;>
    first
    | exact Bool.noConfusion ha
    | exact Bool.noConfusion hb
    | (simp only [pyEq, PyVal.toQ, Option.getD_some] <;>
       first
       | rfl
       | (rename_i x y; cases x <;> cases y <;> decide)
       | rw [← cast_ite_bool, ← int_beq_cast]
       | rw [← cast_ite_bool, ← cast_ite_bool, ← int_beq_cast]
       | rw [← int_beq_cast])

theorem pyEq_num_not_right (a b : PyVal) (ha : a.isNum = true) (hb : b.isNum = false) :
    pyEq a b = false := by
  cases a <;> cases b <;>
    simp only [PyVal.isNum, PyVal.toQ, Option.isSome] at ha hb <;>
    first
    | exact Bool.noConfusion ha
    | exact Bool.noConfusion hb
    | rfl

theorem pyEq_num_not_left (a b : PyVal) (ha : a.isNum = false) (hb : b.isNum = true) :
    pyEq a b = false := by
  cases a <;> cases b <;>
    simp only [PyVal.isNum, PyVal.toQ, Option.isSome] at ha hb <;>
    first
    | exact Bool.noConfusion ha
    | exact Bool.noConfusion hb
    | rfl

theorem pyEq_symm_hash (a b : PyVal) (hb : pyHashable b = true) : pyEq a b = pyEq b a := by
  cases a <;> cases b <;>
    first
    | rfl
    | exact Bool.noConfusion hb
    | (simp only [pyEq]; exact BEq.comm)

theorem pyEq_hash_right {a b : PyVal} (h : pyEq a b = true) (hb : pyHashable b = true) :
    pyHashable a = true := by
  cases a <;> cases b <;> first
    | rfl
    | exact Bool.noConfusion hb
    | exact Bool.noConfusion h

theorem pyEq_trans_hash {a b c : PyVal} (hb : pyHashable b = true)
    (h1 : pyEq a b = true) (h2 : pyEq b c = true) : pyEq a c = true := by
  by_cases hbn : b.isNum = true
  · have han : a.isNum = true := by
      cases hq : a.isNum
      · rw [pyEq_num_not_left a b hq hbn] at h1; cases h1
      · rfl
    have hcn : c.isNum = true := by
      cases hq : c.isNum
      · rw [pyEq_num_not_right b c hbn hq] at h2; cases h2
      · rfl
    rw [pyEq_num_toQ a b han hbn, beq_iff_eq] at h1
    rw [pyEq_num_toQ b c hbn hcn, beq_iff_eq] at h2
    rw [pyEq_num_toQ a c han hcn, beq_iff_eq]
    exact h1.trans h2
  · cases b with
    | pynone =>
      cases a <;> try (simp [pyEq] at h1)
      cases c <;> try (simp [pyEq] at h2)
      rfl
    | pystr t =>
      cases a <;> try (simp [pyEq] at h1)
      cases c <;> try (simp [pyEq] at h2)
      rename_i sa sc
      simp only [pyEq, beq_iff_eq] at h1 h2 ⊢
      exact h1.trans h2
    | pybool x => simp [PyVal.isNum, PyVal.toQ] at hbn
    | pyint n => simp [PyVal.isNum, PyVal.toQ] at hbn
    | pyfloat q => simp [PyVal.isNum, PyVal.toQ] at hbn
    | pylist xs => simp [pyHashable] at hb
    | pydict kvs => simp [pyHashable] at hb

/-! ### Association-list dict lemmas (keys hashable) -/

/-- All keys in a stats dict. -/
theorem statsInv_keys {m : List (PyVal × MStats)} (hm : statsInv m) :
    ∀ e ∈ m, pyHashable e.1 = true := fun e he => (hm e he).1

theorem lookupStats_mem {m : List (PyVal × MStats)} {key : PyVal} {e : MStats}
    (h : lookupStats m key = some e) : ∃ k, (k, e) ∈ m := by
  induction m with
  | nil => cases h
  | cons kv rest ih =>
    obtain ⟨k0, w⟩ := kv
    by_cases h0 : pyEq key k0 = true
    · rw [lookupStats, if_pos h0] at h
      cases h
      exact ⟨k0, by simp⟩
    · rw [lookupStats, if_neg h0] at h
      obtain ⟨k, hk⟩ := ih h
      exact ⟨k, by simp [hk]⟩

theorem lookupStats_insertStats (m : List (PyVal × MStats)) (k : PyVal) (v : MStats)
    (key : PyVal) (hm : ∀ e ∈ m, pyHashable e.1 = true) (hk : pyHashable k = true) :
    lookupStats (insertStats m k v) key =
      if pyEq key k then some v else lookupStats m key := by
  induction m with
  | nil =>
    simp only [insertStats, lookupStats]
  | cons kv rest ih =>
    obtain ⟨k0, w⟩ := kv
    have hk0 : pyHashable k0 = true := hm (k0, w) (by simp)
    have hrest : ∀ e ∈ rest, pyHashable e.1 = true := fun e he => hm e (by simp [he])
    by_cases h1 : pyEq k k0 = true
    · have h1s : pyEq k0 k = true := by rw [← pyEq_symm_hash k k0 hk0]; exact h1
      simp only [insertStats, if_pos h1, lookupStats]
      by_cases h2 : pyEq key k0 = true
      · have hkey : pyEq key k = true := pyEq_trans_hash hk0 h2 h1s
        rw [if_pos h2, if_pos hkey]
      · have hkey : ¬ pyEq key k = true := by
          intro hcon
          exact h2 (pyEq_trans_hash hk hcon h1)
        rw [if_neg h2, if_neg hkey, if_neg h2]
    · simp only [insertStats, if_neg h1, lookupStats]
      by_cases h2 : pyEq key k0 = true
      · have hkeyh : pyHashable key = true := pyEq_hash_right h2 hk0
        have hkey : ¬ pyEq key k = true := by
          intro hcon
          have h3 : pyEq k key = true := by
            rw [← pyEq_symm_hash key k hk]; exact hcon
          exact h1 (pyEq_trans_hash hkeyh h3 h2)
        rw [if_pos h2, if_neg hkey, if_pos h2]
      · rw [if_neg h2, ih hrest]
        by_cases h3 : pyEq key k = true
        · rw [if_pos h3, if_pos h3]
        · rw [if_neg h3, if_neg h3, if_neg h2]

theorem lookupStats_congr (m : List (PyVal × MStats)) (key1 key2 : PyVal)
    (hm : ∀ e ∈ m, pyHashable e.1 = true) (h12 : pyEq key1 key2 = true)
    (hk2 : pyHashable key2 = true) :
    lookupStats m key1 = lookupStats m key2 := by
  induction m with
  | nil => rfl
  | cons kv rest ih =>
    obtain ⟨k0, w⟩ := kv
    have hk0 : pyHashable k0 = true := hm (k0, w) (by simp)
    have hrest : ∀ e ∈ rest, pyHashable e.1 = true := fun e he => hm e (by simp [he])
    have hcond : pyEq key1 k0 = pyEq key2 k0 := by
      rw [Bool.eq_iff_iff]
      constructor
      · intro h1
        have hs : pyEq key2 key1 = true := by
          rw [← pyEq_symm_hash key1 key2 hk2]; exact h12
        have hk1 : pyHashable key1 = true := pyEq_hash_right h12 hk2
        exact pyEq_trans_hash hk1 hs h1
      · intro h2
        exact pyEq_trans_hash hk2 h12 h2
    simp only [lookupStats]
    by_cases h1 : pyEq key1 k0 = true
    · rw [if_pos h1, if_pos (hcond ▸ h1)]
    · rw [if_neg h1, if_neg (show ¬ pyEq key2 k0 = true from by rw [← hcond]; exact h1),
        ih hrest]

/-! ### Numeric addition lemmas -/

theorem pyAdd_num {a b : PyVal} (ha : a.isNum = true) (hb : b.isNum = true) :
    pyAdd a b = .ok (numAdd a b) := by
  rw [PyVal.isNum, Option.isSome_iff_exists] at ha hb
  obtain ⟨x, hx⟩ := ha
  obtain ⟨y, hy⟩ := hb
  unfold pyAdd numAdd
  rw [hx, hy]
  simp [hx, hy]
  split <;> rfl

theorem pyAdd_err {a b : PyVal} (ha : a.isNum = true) (hb : b.isNum = false) :
    pyAdd a b = .error "TypeError: unsupported operand types for +" := by
  cases a <;> cases b <;>
    simp only [PyVal.isNum, PyVal.toQ, Option.isSome] at ha hb <;>
    first
    | exact Bool.noConfusion ha
    | exact Bool.noConfusion hb
    | rfl

theorem numAdd_isNum (a b : PyVal) : (numAdd a b).isNum = true := by
  unfold numAdd
  split <;> simp [PyVal.isNum, PyVal.toQ]

theorem numAdd_isFloatV (a b : PyVal) : (numAdd a b).isFloatV = (a.isFloatV || b.isFloatV) := by
  unfold numAdd
  split
  · rename_i h
    rw [h]
    rfl
  · rename_i h
    rw [Bool.not_eq_true] at h
    rw [h]
    rfl

theorem numAdd_int_form {a b : PyVal} (h : (a.isFloatV || b.isFloatV) = false) :
    numAdd a b = .pyint (pyIntVal a + pyIntVal b) := by
  unfold numAdd
  rw [if_neg (by rw [h]; simp)]

/-- Accumulation by `+` right-commutes on non-float values: these additions
are exact integer additions.  (With a float operand it does not: binary64
rounding makes float addition non-associative, see `claim_C7_cex`.) -/
theorem numAdd_right_comm_nf {e x y : PyVal} (he : e.isFloatV = false)
    (hx : x.isFloatV = false) (hy : y.isFloatV = false) :
    numAdd (numAdd e x) y = numAdd (numAdd e y) x := by
  have hex : numAdd e x = .pyint (pyIntVal e + pyIntVal x) :=
    numAdd_int_form (by rw [he, hx]; rfl)
  have hey : numAdd e y = .pyint (pyIntVal e + pyIntVal y) :=
    numAdd_int_form (by rw [he, hy]; rfl)
  rw [hex, hey,
    numAdd_int_form (show ((PyVal.pyint (pyIntVal e + pyIntVal x)).isFloatV || y.isFloatV)
      = false from by show (false || y.isFloatV) = false; rw [Bool.false_or]; exact hy),
    numAdd_int_form (show ((PyVal.pyint (pyIntVal e + pyIntVal y)).isFloatV || x.isFloatV)
      = false from by show (false || x.isFloatV) = false; rw [Bool.false_or]; exact hx)]
  simp only [pyIntVal]
  congr 1
  ring

/-! ### One aggregation step, characterized -/

theorem updateBuckets_model_stats (st : AggState) (s : Session) :
    (updateBuckets st s).model_stats = st.model_stats := by
  unfold updateBuckets
  split <;> rfl

theorem bucketTriple_updateBuckets (st : AggState) (s : Session) :
    bucketTriple (updateBuckets st s) = bucketStep (bucketTriple st) s := by
  unfold updateBuckets bucketStep
  cases h : classifyGoal s.goal_coords_on <;> simp [h, bucketTriple]

theorem getD_init_num {st : AggState} {key : PyVal} (hinv : statsInv st.model_stats) :
    ((lookupStats st.model_stats key).getD initMStats).moves.isNum = true
    ∧ ((lookupStats st.model_stats key).getD initMStats).backtracks.isNum = true
    ∧ ((lookupStats st.model_stats key).getD initMStats).collisions.isNum = true := by
  cases hl : lookupStats st.model_stats key with
  | none => exact ⟨rfl, rfl, rfl⟩
  | some e =>
    obtain ⟨k, hk⟩ := lookupStats_mem hl
    have h := hinv (k, e) hk
    exact ⟨h.2.1, h.2.2.1, h.2.2.2⟩

theorem agg_model_stats_char (st : AggState) (n : String) (s : Session)
    (hinv : statsInv st.model_stats) :
    (aggregateSession st n s).model_stats =
      if pyHashable s.model = true
      then insertStats st.model_stats s.model
        (entryStep s ((lookupStats st.model_stats s.model).getD initMStats))
      else st.model_stats := by
  obtain ⟨hm1, hm2, hm3⟩ := @getD_init_num st s.model hinv
  by_cases hh : pyHashable s.model = true
  · rw [if_pos hh]
    cases hadd1 : pyAdd ((lookupStats st.model_stats s.model).getD initMStats).moves
        s.total_moves with
    | error msg =>
      have htm : s.total_moves.isNum = false := by
        cases hq : s.total_moves.isNum
        · rfl
        · rw [pyAdd_num hm1 hq] at hadd1; cases hadd1
      simp only [aggregateSession, if_pos hh, hadd1, addError]
      congr 1
      simp [entryStep, htm]
    | ok mv =>
      have htm : s.total_moves.isNum = true := by
        cases hq : s.total_moves.isNum
        · rw [pyAdd_err hm1 hq] at hadd1; cases hadd1
        · rfl
      rw [pyAdd_num hm1 htm] at hadd1
      cases hadd1
      cases hadd2 : pyAdd ((lookupStats st.model_stats s.model).getD initMStats).backtracks
          s.backtracks with
      | error msg =>
        have hbt : s.backtracks.isNum = false := by
          cases hq : s.backtracks.isNum
          · rfl
          · rw [pyAdd_num hm2 hq] at hadd2; cases hadd2
        simp only [aggregateSession, if_pos hh, pyAdd_num hm1 htm, hadd2, addError]
        congr 1
        simp [entryStep, htm, hbt]
      | ok bv =>
        have hbt : s.backtracks.isNum = true := by
          cases hq : s.backtracks.isNum
          · rw [pyAdd_err hm2 hq] at hadd2; cases hadd2
          · rfl
        rw [pyAdd_num hm2 hbt] at hadd2
        cases hadd2
        cases hadd3 : pyAdd ((lookupStats st.model_stats s.model).getD initMStats).collisions
            s.wall_collisions with
        | error msg =>
          have hwc : s.wall_collisions.isNum = false := by
            cases hq : s.wall_collisions.isNum
            · rfl
            · rw [pyAdd_num hm3 hq] at hadd3; cases hadd3
          simp only [aggregateSession, if_pos hh, pyAdd_num hm1 htm, pyAdd_num hm2 hbt,
            hadd3, addError]
          congr 1
          simp [entryStep, htm, hbt, hwc]
        | ok cv =>
          have hwc : s.wall_collisions.isNum = true := by
            cases hq : s.wall_collisions.isNum
            · rw [pyAdd_err hm3 hq] at hadd3; cases hadd3
            · rfl
          rw [pyAdd_num hm3 hwc] at hadd3
          cases hadd3
          simp only [aggregateSession, if_pos hh, pyAdd_num hm1 htm, pyAdd_num hm2 hbt,
            pyAdd_num hm3 hwc, updateBuckets_model_stats]
          congr 1
          simp [entryStep, htm, hbt, hwc]
  · rw [if_neg hh]
    simp only [aggregateSession, if_neg hh, addError]

theorem agg_bucketTriple_char (st : AggState) (n : String) (s : Session)
    (hinv : statsInv st.model_stats) :
    bucketTriple (aggregateSession st n s) = bucketStepIf (bucketTriple st) s := by
  obtain ⟨hm1, hm2, hm3⟩ := @getD_init_num st s.model hinv
  unfold bucketStepIf
  by_cases hh : pyHashable s.model = true
  · cases htm : s.total_moves.isNum with
    | false =>
      have hf : ¬ aggSuccess s = true := by simp [aggSuccess, htm]
      rw [if_neg hf]
      simp only [aggregateSession, if_pos hh, pyAdd_err hm1 htm, addError]
      rfl
    | true =>
      cases hbt : s.backtracks.isNum with
      | false =>
        have hf : ¬ aggSuccess s = true := by simp [aggSuccess, hbt]
        rw [if_neg hf]
        simp only [aggregateSession, if_pos hh, pyAdd_num hm1 htm, pyAdd_err hm2 hbt, addError]
        rfl
      | true =>
        cases hwc : s.wall_collisions.isNum with
        | false =>
          have hf : ¬ aggSuccess s = true := by simp [aggSuccess, hwc]
          rw [if_neg hf]
          simp only [aggregateSession, if_pos hh, pyAdd_num hm1 htm, pyAdd_num hm2 hbt,
            pyAdd_err hm3 hwc, addError]
          rfl
        | true =>
          have hf : aggSuccess s = true := by simp [aggSuccess, hh, htm, hbt, hwc]
          rw [if_pos hf]
          simp only [aggregateSession, if_pos hh, pyAdd_num hm1 htm, pyAdd_num hm2 hbt,
            pyAdd_num hm3 hwc]
          rw [bucketTriple_updateBuckets]
          rfl
  · have hf : ¬ aggSuccess s = true := by simp [aggSuccess, hh]
    rw [if_neg hf]
    simp only [aggregateSession, if_neg hh, addError]
    rfl

/-! ### Invariant preservation and commutation -/

theorem entryStep_num {s : Session} {e : MStats}
    (he : e.moves.isNum = true ∧ e.backtracks.isNum = true ∧ e.collisions.isNum = true) :
    (entryStep s e).moves.isNum = true ∧ (entryStep s e).backtracks.isNum = true
    ∧ (entryStep s e).collisions.isNum = true := by
  refine ⟨?_, ?_, ?_⟩ <;> simp only [entryStep] <;> split <;>
    first
    | exact numAdd_isNum _ _
    | exact he.1
    | exact he.2.1
    | exact he.2.2

theorem insertStats_inv {m : List (PyVal × MStats)} {k : PyVal} {v : MStats}
    (hm : statsInv m) (hk : pyHashable k = true)
    (hv : v.moves.isNum = true ∧ v.backtracks.isNum = true ∧ v.collisions.isNum = true) :
    statsInv (insertStats m k v) := by
  induction m with
  | nil =>
    intro e he
    simp only [insertStats, List.mem_singleton] at he
    subst he
    exact ⟨hk, hv.1, hv.2.1, hv.2.2⟩
  | cons kv rest ih =>
    obtain ⟨k0, w⟩ := kv
    have hrest : statsInv rest := fun e he => hm e (by simp [he])
    intro e he
    simp only [insertStats] at he
    split at he
    · rcases List.mem_cons.mp he with h | h
      · subst h
        exact ⟨(hm (k0, w) (by simp)).1, hv.1, hv.2.1, hv.2.2⟩
      · exact hm e (by simp [h])
    · rcases List.mem_cons.mp he with h | h
      · subst h
        exact hm (k0, w) (by simp)
      · exact ih hrest e h

theorem agg_statsInv (st : AggState) (n : String) (s : Session)
    (hinv : statsInv st.model_stats) : statsInv (aggregateSession st n s).model_stats := by
  rw [agg_model_stats_char st n s hinv]
  by_cases hh : pyHashable s.model = true
  · rw [if_pos hh]
    exact insertStats_inv hinv hh (entryStep_num (getD_init_num hinv))
  · rw [if_neg hh]
    exact hinv

theorem bucketAdd_swap (g : GStats) (a b : Session) :
    bucketAdd (bucketAdd g a) b = bucketAdd (bucketAdd g b) a := by
  simp only [bucketAdd, GStats.mk.injEq]
  exact ⟨trivial, Nat.add_right_comm _ _ _⟩

theorem bucketStep_comm (t : GStats × GStats × GStats) (a b : Session) :
    bucketStep (bucketStep t a) b = bucketStep (bucketStep t b) a := by
  unfold bucketStep
  cases ha : classifyGoal a.goal_coords_on <;> cases hb : classifyGoal b.goal_coords_on <;>
    simp [bucketAdd_swap]

theorem bucketStepIf_comm (t : GStats × GStats × GStats) (a b : Session) :
    bucketStepIf (bucketStepIf t a) b = bucketStepIf (bucketStepIf t b) a := by
  unfold bucketStepIf
  by_cases ha : aggSuccess a = true <;> by_cases hb : aggSuccess b = true <;>
    simp [ha, hb, bucketStep_comm]

/-- `entryStep` preserves non-floatness of the accumulated counters when the
session's metric values are non-float. -/
theorem entryStep_nf {s : Session} {e : MStats} (hs : sessionNonFloat s = true)
    (he : mstatsNonFloat e = true) : mstatsNonFloat (entryStep s e) = true := by
  simp only [sessionNonFloat, Bool.and_eq_true, Bool.not_eq_true'] at hs
  simp only [mstatsNonFloat, Bool.and_eq_true, Bool.not_eq_true'] at he ⊢
  obtain ⟨⟨hs1, hs2⟩, hs3⟩ := hs
  obtain ⟨⟨he1, he2⟩, he3⟩ := he
  refine ⟨⟨?_, ?_⟩, ?_⟩ <;> simp only [entryStep] <;> split <;>
    first
    | (rw [numAdd_isFloatV]; simp [hs1, hs2, hs3, he1, he2, he3])
    | assumption

/-- Two entry updates with non-float metric values commute on an accumulator
with non-float counters: every addition involved is exact. -/
theorem entryStep_comm_nf {a b : Session} {e : MStats}
    (ha : sessionNonFloat a = true) (hb : sessionNonFloat b = true)
    (he : mstatsNonFloat e = true) :
    entryStep a (entryStep b e) = entryStep b (entryStep a e) := by
  simp only [sessionNonFloat, Bool.and_eq_true, Bool.not_eq_true'] at ha hb
  simp only [mstatsNonFloat, Bool.and_eq_true, Bool.not_eq_true'] at he
  obtain ⟨⟨ha1, ha2⟩, ha3⟩ := ha
  obtain ⟨⟨hb1, hb2⟩, hb3⟩ := hb
  obtain ⟨⟨he1, he2⟩, he3⟩ := he
  simp only [entryStep, MStats.mk.injEq]
  refine ⟨trivial, Nat.add_right_comm _ _ _, ?_, ?_, ?_⟩
  · by_cases hta : a.total_moves.isNum = true <;> by_cases htb : b.total_moves.isNum = true <;>
      simp [hta, htb, numAdd_right_comm_nf he1 hb1 ha1]
  · by_cases hta : (a.total_moves.isNum && a.backtracks.isNum) = true <;>
      by_cases htb : (b.total_moves.isNum && b.backtracks.isNum) = true <;>
      simp [hta, htb, numAdd_right_comm_nf he2 hb2 ha2]
  · by_cases hta :
      (a.total_moves.isNum && a.backtracks.isNum && a.wall_collisions.isNum) = true <;>
      by_cases htb :
        (b.total_moves.isNum && b.backtracks.isNum && b.wall_collisions.isNum) = true <;>
      simp [hta, htb, numAdd_right_comm_nf he3 hb3 ha3]

theorem optStep_nf {key : PyVal} {o : Option MStats} {s : Session}
    (ho : optNF o) (hs : sessionNonFloat s = true) : optNF (optStep key o s) := by
  unfold optNF at ho ⊢
  unfold optStep
  split
  · simp only [Option.getD_some]
    exact entryStep_nf hs ho
  · exact ho

theorem optStep_comm_nf {key : PyVal} {o : Option MStats} {a b : Session}
    (ho : optNF o) (ha : sessionNonFloat a = true) (hb : sessionNonFloat b = true) :
    optStep key (optStep key o a) b = optStep key (optStep key o b) a := by
  unfold optNF at ho
  unfold optStep
  by_cases hca : (pyHashable a.model && pyEq key a.model) = true <;>
    by_cases hcb : (pyHashable b.model && pyEq key b.model) = true <;>
    simp [hca, hcb]
  exact entryStep_comm_nf hb ha ho

theorem optStep_projRW (key : PyVal) (o : Option MStats) (s : Session) :
    (optStep key o s).map projRW = optStepRW key (o.map projRW) s := by
  unfold optStep optStepRW
  by_cases h : (pyHashable s.model && pyEq key s.model) = true
  · rw [if_pos h, if_pos h]
    cases o with
    | none => rfl
    | some e => rfl
  · rw [if_neg h, if_neg h]

theorem optStepRW_comm (key : PyVal) (o : Option (Nat × Nat)) (a b : Session) :
    optStepRW key (optStepRW key o a) b = optStepRW key (optStepRW key o b) a := by
  unfold optStepRW
  by_cases ha : (pyHashable a.model && pyEq key a.model) = true <;>
    by_cases hb : (pyHashable b.model && pyEq key b.model) = true <;>
    simp [ha, hb] <;> omega

/-- Folding over a permutation with a right-commutative step. -/
theorem foldl_perm_of_comm {α β : Type} (f : β → α → β)
    (hc : ∀ b a1 a2, f (f b a1) a2 = f (f b a2) a1) {l l' : List α} (hp : l.Perm l') :
    ∀ b, l.foldl f b = l'.foldl f b := by
  induction hp with
  | nil => intro b; rfl
  | cons x p ih => intro b; simp only [List.foldl_cons]; exact ih _
  | swap x y l => intro b; simp only [List.foldl_cons]; rw [hc]
  | trans p1 p2 ih1 ih2 => intro b; rw [ih1, ih2]

/-- Folding over a permutation with a step that right-commutes on elements
satisfying `Q`, from a start state satisfying a `Q`-preserved invariant `P`. -/
theorem foldl_perm_of_comm_mem {α β : Type} (f : β → α → β) (Q : α → Prop) (P : β → Prop)
    (hP : ∀ b a, P b → Q a → P (f b a))
    (hc : ∀ b a1 a2, P b → Q a1 → Q a2 → f (f b a1) a2 = f (f b a2) a1)
    {l l' : List α} (hp : l.Perm l') :
    ∀ b, P b → (∀ a ∈ l, Q a) → l.foldl f b = l'.foldl f b := by
  induction hp with
  | nil => intro b _ _; rfl
  | cons x p ih =>
    intro b hb hQ
    simp only [List.foldl_cons]
    exact ih _ (hP b x hb (hQ x (by simp))) (fun a ha => hQ a (by simp [ha]))
  | swap x y l =>
    intro b hb hQ
    simp only [List.foldl_cons]
    rw [hc b y x hb (hQ y (by simp)) (hQ x (by simp))]
  | trans p1 p2 ih1 ih2 =>
    intro b hb hQ
    rw [ih1 b hb hQ, ih2 b hb (fun a ha => hQ a (p1.mem_iff.mpr ha))]

/-! ### Folding the loop, observed through lookups and buckets -/

theorem lookup_foldagg (l : List Session) (st : AggState) (key : PyVal)
    (hinv : statsInv st.model_stats) :
    lookupStats ((l.foldl (fun st s => aggregateSession st "file" s) st)).model_stats key =
      l.foldl (optStep key) (lookupStats st.model_stats key) := by
  induction l generalizing st with
  | nil => rfl
  | cons s rest ih =>
    rw [List.foldl_cons, List.foldl_cons, ih _ (agg_statsInv st "file" s hinv)]
    congr 1
    rw [agg_model_stats_char st "file" s hinv]
    unfold optStep
    by_cases hh : pyHashable s.model = true
    · rw [if_pos hh, lookupStats_insertStats _ _ _ _ (statsInv_keys hinv) hh]
      by_cases hke : pyEq key s.model = true
      · rw [if_pos hke, if_pos (by simp [hh, hke])]
        have hsym : pyEq s.model key = true := by
          rw [← pyEq_symm_hash key s.model hh]; exact hke
        have hkh : pyHashable key = true := pyEq_hash_right hke hh
        rw [lookupStats_congr st.model_stats s.model key (statsInv_keys hinv) hsym hkh]
      · rw [if_neg hke, if_neg (by simp [hke])]
    · rw [if_neg hh, if_neg (by simp [hh])]

theorem bucketTriple_foldagg (l : List Session) (st : AggState)
    (hinv : statsInv st.model_stats) :
    bucketTriple (l.foldl (fun st s => aggregateSession st "file" s) st) =
      l.foldl bucketStepIf (bucketTriple st) := by
  induction l generalizing st with
  | nil => rfl
  | cons s rest ih =>
    rw [List.foldl_cons, List.foldl_cons, ih _ (agg_statsInv st "file" s hinv),
      agg_bucketTriple_char st "file" s hinv]

theorem initAgg_statsInv : statsInv initAgg.model_stats :=
  fun e he => absurd he (List.not_mem_nil e)

theorem foldl_optStep_projRW (l : List Session) (key : PyVal) (o : Option MStats) :
    (l.foldl (optStep key) o).map projRW = l.foldl (optStepRW key) (o.map projRW) := by
  induction l generalizing o with
  | nil => rfl
  | cons s rest ih =>
    rw [List.foldl_cons, List.foldl_cons, ih, optStep_projRW]

/-- C7 (amended): for every permutation of a list of normalized records, the
three goal-coordinate buckets agree and every model's runs and wins counters
agree unconditionally; the accumulated moves/backtracks/collisions totals
also agree provided no record carries a float metric value (so that every
`+=` is an exact integer addition).  With float metric values the totals are
genuinely order-dependent, because binary64 float addition is not
associative — see `claim_C7_cex`. -/
theorem claim_C7_order_independent (l l' : List Session) (hp : l.Perm l') :
    ((aggRecords l).goal_on = (aggRecords l').goal_on
      ∧ (aggRecords l).goal_off = (aggRecords l').goal_off
      ∧ (aggRecords l).goal_unknown = (aggRecords l').goal_unknown)
    ∧ (∀ key, (lookupStats (aggRecords l).model_stats key).map projRW
        = (lookupStats (aggRecords l').model_stats key).map projRW)
    ∧ ((∀ s ∈ l, sessionNonFloat s = true) →
        ∀ key, lookupStats (aggRecords l).model_stats key
          = lookupStats (aggRecords l').model_stats key) := by
  refine ⟨?_, ?_, ?_⟩
  · have hb : bucketTriple (aggRecords l) = bucketTriple (aggRecords l') := by
      unfold aggRecords
      rw [bucketTriple_foldagg l initAgg initAgg_statsInv,
        bucketTriple_foldagg l' initAgg initAgg_statsInv]
      exact foldl_perm_of_comm _ bucketStepIf_comm hp _
    exact ⟨congrArg (fun t => t.1) hb, congrArg (fun t => t.2.1) hb,
      congrArg (fun t => t.2.2) hb⟩
  · intro key
    unfold aggRecords
    rw [lookup_foldagg l initAgg key initAgg_statsInv,
      lookup_foldagg l' initAgg key initAgg_statsInv,
      foldl_optStep_projRW, foldl_optStep_projRW]
    exact foldl_perm_of_comm _ (optStepRW_comm key) hp _
  · intro hnf key
    unfold aggRecords
    rw [lookup_foldagg l initAgg key initAgg_statsInv,
      lookup_foldagg l' initAgg key initAgg_statsInv]
    exact foldl_perm_of_comm_mem (optStep key) (fun s => sessionNonFloat s = true) optNF
      (fun b a hb ha => optStep_nf hb ha)
      (fun b a1 a2 hb h1 h2 => optStep_comm_nf hb h1 h2)
      hp _ (by rfl) hnf

theorem claim_C7_order_independent_witness :
    (aggRecords [sessWinA, sessGoalOne]).goal_on
      = (aggRecords [sessGoalOne, sessWinA]).goal_on
    ∧ lookupStats (aggRecords [sessWinA, sessGoalOne]).model_stats (.pystr "A")
      = lookupStats (aggRecords [sessGoalOne, sessWinA]).model_stats (.pystr "A") := by
  have h := claim_C7_order_independent [sessWinA, sessGoalOne] [sessGoalOne, sessWinA]
    (List.Perm.swap sessGoalOne sessWinA [])
  refine ⟨h.1.1, h.2.2 ?_ (.pystr "A")⟩
  intro s hs
  simp only [List.mem_cons, List.not_mem_nil, or_false] at hs
  rcases hs with rfl | rfl
  · rfl
  · rfl

/-- C7 counterexample: the spec's unconditional order-independence fails on
float metric values.  Three records for model `"A"` with `totalMoves` floats
`1e16, 1.0, 1.0` total `1e16` moves in that order (each `+ 1.0` falls on a
tie and rounds back down to `1e16`), but the permutation `1.0, 1.0, 1e16`
totals `1.0000000000000002e16` (the exact partial sum `2.0` survives, and
`1e16 + 2` is representable), exactly as CPython computes. -/
theorem claim_C7_cex :
    List.Perm [sessF16, sessF1, sessF1] [sessF1, sessF1, sessF16]
    ∧ ((lookupStats (aggRecords [sessF16, sessF1, sessF1]).model_stats (.pystr "A")).getD
        initMStats).moves = .pyfloat 10000000000000000
    ∧ ((lookupStats (aggRecords [sessF1, sessF1, sessF16]).model_stats (.pystr "A")).getD
        initMStats).moves = .pyfloat 10000000000000002
    ∧ (10000000000000000 : ℚ) ≠ (10000000000000002 : ℚ) := by
  refine ⟨?_, ?_, ?_, by decide⟩
  · exact (List.Perm.swap sessF1 sessF16 [sessF1]).trans
      (List.Perm.cons sessF1 (List.Perm.swap sessF1 sessF16 []))
  · rfl
  · rfl

/-! ### The bucket partition invariant (C9) -/

theorem tripleRuns_bucketStep (t : GStats × GStats × GStats) (s : Session) :
    tripleRuns (bucketStep t s) = tripleRuns t + 1 := by
  unfold bucketStep
  cases classifyGoal s.goal_coords_on <;> simp [tripleRuns, bucketAdd] <;> omega

theorem tripleWins_bucketStep (t : GStats × GStats × GStats) (s : Session) :
    tripleWins (bucketStep t s) = tripleWins t + (if pyTruthy s.won then 1 else 0) := by
  unfold bucketStep
  cases classifyGoal s.goal_coords_on <;> simp [tripleWins, bucketAdd] <;> omega

theorem processFile_statsInv (st : AggState) (f : String × Except String PyVal)
    (hinv : statsInv st.model_stats) : statsInv (processFile st f).model_stats := by
  unfold processFile
  cases hp : parseNorm f with
  | error msg => exact hinv
  | ok s => exact agg_statsInv _ _ _ hinv

theorem processFile_partition_step (st : AggState) (f : String × Except String PyVal)
    (hinv : statsInv st.model_stats) (hf : fileAggOk f = true) :
    ∃ r w : Nat,
      bucketRunsSum (processFile st f) = bucketRunsSum st + r
      ∧ (processFile st f).all_sessions.length = st.all_sessions.length + r
      ∧ bucketWinsSum (processFile st f) = bucketWinsSum st + w
      ∧ ((processFile st f).all_sessions.filter (fun s => pyTruthy s.won)).length
        = (st.all_sessions.filter (fun s => pyTruthy s.won)).length + w := by
  cases hp : parseNorm f with
  | error msg =>
    refine ⟨0, 0, ?_, ?_, ?_, ?_⟩ <;>
      (unfold processFile; rw [hp]; simp [addError, bucketRunsSum, bucketWinsSum])
  | ok s =>
    have hsucc : aggSuccess s = true := by
      unfold fileAggOk at hf
      rw [hp] at hf
      exact hf
    have hb := agg_bucketTriple_char
      { st with all_sessions := st.all_sessions ++ [s] } f.1 s hinv
    rw [bucketStepIf, if_pos hsucc] at hb
    refine ⟨1, if pyTruthy s.won then 1 else 0, ?_, ?_, ?_, ?_⟩ <;>
      (unfold processFile; rw [hp])
    · rw [show bucketRunsSum (aggregateSession
          { st with all_sessions := st.all_sessions ++ [s] } f.1 s)
        = tripleRuns (bucketTriple (aggregateSession
          { st with all_sessions := st.all_sessions ++ [s] } f.1 s)) from rfl, hb,
        tripleRuns_bucketStep]
      rfl
    · rw [agg_all_sessions]
      simp
    · rw [show bucketWinsSum (aggregateSession
          { st with all_sessions := st.all_sessions ++ [s] } f.1 s)
        = tripleWins (bucketTriple (aggregateSession
          { st with all_sessions := st.all_sessions ++ [s] } f.1 s)) from rfl, hb,
        tripleWins_bucketStep]
      rfl
    · rw [agg_all_sessions]
      simp only [List.filter_append, List.length_append]
      cases hw : pyTruthy s.won <;> simp [List.filter, hw]

theorem runLoop_partition_aux (files : List (String × Except String PyVal)) (st : AggState)
    (hinv : statsInv st.model_stats) (h : files.all fileAggOk = true) :
    bucketRunsSum (files.foldl processFile st) + st.all_sessions.length
      = bucketRunsSum st + (files.foldl processFile st).all_sessions.length
    ∧ bucketWinsSum (files.foldl processFile st)
        + (st.all_sessions.filter (fun s => pyTruthy s.won)).length
      = bucketWinsSum st
        + ((files.foldl processFile st).all_sessions.filter
            (fun s => pyTruthy s.won)).length := by
  induction files generalizing st with
  | nil => exact ⟨rfl, rfl⟩
  | cons f rest ih =>
    rw [List.all_cons, Bool.and_eq_true] at h
    obtain ⟨hf, hrest⟩ := h
    rw [List.foldl_cons]
    obtain ⟨ih1, ih2⟩ := ih (processFile st f) (processFile_statsInv st f hinv) hrest
    obtain ⟨r, w, hs1, hs2, hs3, hs4⟩ := processFile_partition_step st f hinv hf
    constructor
    · omega
    · omega

/-- C9 as stated is false: a file whose exception occurs after its record was
appended (unhashable model name) leaves the buckets un-incremented, so after
the next cleanly-processed file the goal buckets no longer partition the
collected sessions: 2 sessions collected, but bucket runs sum to 1. -/
theorem claim_C9_cex :
    (runLoop [fileBadModel, fileGood]).errors.length = 1
    ∧ (runLoop [fileBadModel, fileGood]).all_sessions.length = 2
    ∧ bucketRunsSum (runLoop [fileBadModel, fileGood]) = 1 := ⟨rfl, rfl, rfl⟩

/-- C9 (amended): provided every file either raises before its record is
appended or aggregates fully without an exception (in particular after any
run with no exceptions at all), the three goal-coordinate buckets partition
the collected sessions: their runs sum to the number of collected records
and their wins sum to the number of collected records with a truthy `won`
flag.  Applied to a prefix of the scan, this holds after each file. -/
theorem claim_C9_buckets_partition (files : List (String × Except String PyVal))
    (h : files.all fileAggOk = true) :
    bucketRunsSum (runLoop files) = (runLoop files).all_sessions.length
    ∧ bucketWinsSum (runLoop files)
      = ((runLoop files).all_sessions.filter (fun s => pyTruthy s.won)).length := by
  obtain ⟨h1, h2⟩ := runLoop_partition_aux files initAgg initAgg_statsInv h
  unfold runLoop
  have e1 : bucketRunsSum initAgg = 0 := rfl
  have e2 : bucketWinsSum initAgg = 0 := rfl
  have e3 : initAgg.all_sessions.length = 0 := rfl
  have e4 : (initAgg.all_sessions.filter (fun s => pyTruthy s.won)).length = 0 := rfl
  exact ⟨by omega, by omega⟩

theorem claim_C9_buckets_partition_witness :
    [fileGood, ("d.json", (.error "bad json" : Except String PyVal))].all fileAggOk = true
    ∧ bucketRunsSum (runLoop [fileGood, ("d.json", .error "bad json")]) = 1
    ∧ (runLoop [fileGood, ("d.json", .error "bad json")]).all_sessions.length = 1 := by
  refine ⟨rfl, ?_, rfl⟩
  have h := claim_C9_buckets_partition [fileGood, ("d.json", .error "bad json")] rfl
  rw [h.1]
  rfl

/-! ### C5: which runs crash, which exit 0 -/

